import Mathlib

set_option linter.unusedVariables false

namespace TheLightrading

/-! # Shallow embedding of the TheLightrading pricing / promo backend

Definitions translate `src/api/server.py` and `src/api/db.py`.
Python floats are modelled as `ℚ`; SQL `NULL` and absent dict keys as
`Option`; Python `or`-truthiness is made explicit via `pyOr*` helpers.
Timestamp columns (`created_at`, `updated_at`, `promo_last_update`) carry
no logic in any verified claim and are omitted from the record models. -/

/-! ## Python-style string primitives (ASCII fragment) -/

/-- Lowercase conversion for one ASCII character. -/
def lowerChar (c : Char) : Char :=
  if 'A' ≤ c ∧ c ≤ 'Z' then Char.ofNat (c.toNat + 32) else c

/-- Uppercase conversion for one ASCII character. -/
def upperChar (c : Char) : Char :=
  if 'a' ≤ c ∧ c ≤ 'z' then Char.ofNat (c.toNat - 32) else c

/-- ASCII `str.lower()`. -/
def strLower (s : String) : String := ⟨s.data.map lowerChar⟩

/-- ASCII `str.upper()`. -/
def strUpper (s : String) : String := ⟨s.data.map upperChar⟩

def isSpaceChar (c : Char) : Bool :=
  c = ' ' || c = '\t' || c = '\n' || c = '\r'

/-- Python `str.strip()` (ASCII whitespace fragment). -/
def strStrip (s : String) : String :=
  ⟨((s.data.dropWhile isSpaceChar).reverse.dropWhile isSpaceChar).reverse⟩

/-- The characters after the last `'@'`: Python `value.split("@")[-1]`
for a string containing at least one `'@'`. -/
def afterLastAt (l : List Char) : List Char :=
  match l with
  | [] => []
  | c :: rest =>
      if c = '@' ∧ ¬ rest.contains '@' then rest
      else afterLastAt rest

def strContains (s : String) (c : Char) : Bool := s.data.contains c

/-- Python slice `s[:n]`. -/
def strTake (s : String) (n : Nat) : String := ⟨s.data.take n⟩

/-! ## Python truthiness helpers -/

/-- Truthiness of an optional string (`None` and `""` are falsy). -/
def sTruthy : Option String → Bool
  | some s => s ≠ ""
  | none => false

/-- Python `x or y` on optional strings. -/
def pyOrS (x y : Option String) : Option String := if sTruthy x then x else y

/-- Truthiness of an optional number (`None` and `0` are falsy). -/
def qTruthy : Option ℚ → Bool
  | some v => v ≠ 0
  | none => false

/-- Python `x or y` on optional numbers. -/
def pyOrQ (x y : Option ℚ) : Option ℚ := if qTruthy x then x else y

/-- Python `x or y` on lists (empty list is falsy). -/
def pyOrL (x y : List String) : List String := if x = [] then y else x

/-! ## Discount rules (db.py: `discount_rules` table, `list_discount_rules`;
server.py: `discount_rules_to_configs`) -/

/-- One row of the `discount_rules` table. -/
structure DiscountRuleRow where
  offer_id : String
  segment : String
  min_amount : ℚ
  max_amount : Option ℚ
  discount_percent : ℚ
  valid_until : Option String
deriving Repr, DecidableEq

/-- `ORDER BY offer_id, segment, min_amount` (SQLite binary collation on
ASCII text agrees with lexicographic string order). -/
def ruleLe (a b : DiscountRuleRow) : Prop :=
  a.offer_id < b.offer_id ∨
    (a.offer_id = b.offer_id ∧
      (a.segment < b.segment ∨ (a.segment = b.segment ∧ a.min_amount ≤ b.min_amount)))

instance : DecidableRel ruleLe := fun a b => by
  unfold ruleLe; infer_instance

/-- db.py `list_discount_rules`: all rules ordered by
(offer_id, segment, min_amount). Ties (identical keys) have no specified
order in SQL; a stable insertion sort realises one valid order. -/
def list_discount_rules (table : List DiscountRuleRow) : List DiscountRuleRow :=
  List.insertionSort ruleLe table

/-- A bracket inside a config, as built by `discount_rules_to_configs`:
`{"min": ..., "max": ... (None ↦ +∞, kept as `none` here), "discount": ...,
"valid_until": ...}`. -/
structure Bracket where
  min : ℚ
  max : Option ℚ
  discount : ℚ
  valid_until : Option String
deriving Repr, DecidableEq

def toBracket (r : DiscountRuleRow) : Bracket :=
  ⟨r.min_amount, r.max_amount, r.discount_percent, r.valid_until⟩

/-- One entry of the configs list: `{"id": offer_id, "rules": {segment: [...]}}`.
The inner Python dict is an insertion-ordered association list. -/
structure Config where
  id : String
  rules : List (String × List Bracket)
deriving Repr, DecidableEq

/-- `cfg["rules"].setdefault(segment, []).append(bracket)` on an
insertion-ordered dict. -/
def addToSegRules (segs : List (String × List Bracket)) (seg : String) (b : Bracket) :
    List (String × List Bracket) :=
  match segs with
  | [] => [(seg, [b])]
  | (s, bs) :: rest =>
      if s = seg then (s, bs ++ [b]) :: rest else (s, bs) :: addToSegRules rest seg b

/-- `configs.setdefault(offer_id, {"id": offer_id, "rules": {}})` followed by
the segment-level append, on an insertion-ordered dict. -/
def addToConfigs (cfgs : List Config) (offer : String) (seg : String) (b : Bracket) :
    List Config :=
  match cfgs with
  | [] => [⟨offer, [(seg, [b])]⟩]
  | c :: rest =>
      if c.id = offer then ⟨c.id, addToSegRules c.rules seg b⟩ :: rest
      else c :: addToConfigs rest offer seg b

/-- server.py `discount_rules_to_configs`. -/
def discount_rules_to_configs (table : List DiscountRuleRow) : List Config :=
  (list_discount_rules table).foldl
    (fun cfgs r => addToConfigs cfgs r.offer_id r.segment (toBracket r)) []

/-! ## Products and price resolution (server.py `pick_price_for_segment`,
`compute_price_with_discounts`) -/

/-- A product record as read back by `get_product_by_sku` (JSON columns
decoded; of the `extra` attribute map only `offer_id` is ever consulted
by pricing, so only it is modelled). -/
structure Product where
  sku : String
  name : Option String
  codice : Option String
  image_hd : Option String
  image_thumb : Option String
  gallery_json : List String
  description_html : Option String
  base_price : Option ℚ
  unit : Option String
  markup_riv10 : Option ℚ
  markup_riv : Option ℚ
  markup_dist : Option ℚ
  price_riv10 : Option ℚ
  price_riv : Option ℚ
  price_dist : Option ℚ
  price_distributore : Option ℚ
  price_rivenditore : Option ℚ
  price_rivenditore10 : Option ℚ
  qty_stock : Option Int
  discount_dist_percent : Option ℚ
  discount_riv_percent : Option ℚ
  discount_riv10_percent : Option ℚ
  status : Option String
  extra_offer_id : Option String
deriving Repr, DecidableEq

/-- The final fallback line of `pick_price_for_segment`:
`float(product.get("base_price") or fallback_base or 0)`. -/
def baseFallback (product : Product) (fallback_base : Option ℚ) : ℚ :=
  (pyOrQ product.base_price (pyOrQ fallback_base (some 0))).getD 0

/-- server.py `pick_price_for_segment`. -/
def pick_price_for_segment (product : Product) (segment : String)
    (fallback_base : Option ℚ) : ℚ :=
  if segment = "distributore" then
    match product.price_distributore, product.price_dist with
    | some v, _ => v
    | none, some v => v
    | none, none => baseFallback product fallback_base
  else if segment = "rivenditore" then
    match product.price_rivenditore, product.price_riv with
    | some v, _ => v
    | none, some v => v
    | none, none => baseFallback product fallback_base
  else if segment = "rivenditore10" then
    match product.price_rivenditore10, product.price_riv10 with
    | some v, _ => v
    | none, some v => v
    | none, none => baseFallback product fallback_base
  else baseFallback product fallback_base

/-- `amount >= float(rule.get("min", 0)) and amount <= max_amount`
with `max_amount = float("inf")` when the stored max is `NULL`. -/
def bracketContains (amount : ℚ) (r : Bracket) : Bool :=
  decide (r.min ≤ amount) &&
    (match r.max with
     | some m => decide (amount ≤ m)
     | none => true)

/-- The inner `for rule in rules` loop of `compute_price_with_discounts`:
the first bracket containing the amount sets `discount_value` (already
divided by 100) and breaks. -/
def scanRules (amount : ℚ) : List Bracket → ℚ
  | [] => 0
  | r :: rest =>
      if bracketContains amount r then r.discount / 100 else scanRules amount rest

/-- `cfg.get("rules", {}).get(customer_segment, [])`. -/
def segRulesOf (cfg : Config) (segment : String) : List Bracket :=
  ((cfg.rules.find? (fun e => e.1 = segment)).map Prod.snd).getD []

/-- The outer `for cfg in configs` loop: configs with a different id are
skipped; after scanning a matching config the loop breaks as soon as
`discount_value` is non-zero. -/
def scanConfigs (offer_id segment : String) (amount : ℚ) : List Config → ℚ
  | [] => 0
  | cfg :: rest =>
      if cfg.id ≠ offer_id then scanConfigs offer_id segment amount rest
      else
        let d := scanRules amount (segRulesOf cfg segment)
        if d ≠ 0 then d else scanConfigs offer_id segment amount rest

/-- The JSON payload returned by `compute_price_with_discounts`. -/
structure PriceResult where
  sku : String
  base_price : ℚ
  segment : String
  quantity : Int
  price : ℚ
  discount_applied : ℚ
deriving Repr, DecidableEq

/-- server.py `compute_price_with_discounts`. The `fallback_base` argument
passed by the code is `product.get("base_price", 0)`; a missing key and a
`0` default are both falsy in the subsequent `or`-chain, so the product's
own `base_price` option models it exactly. `extra.get("offer_id")` is
`product.extra_offer_id`; the `if offer_id:` truthiness test makes an
empty-string offer id behave like an absent one. -/
def compute_price_with_discounts (table : List DiscountRuleRow) (product : Product)
    (customer_segment : String) (quantity : Int) : PriceResult :=
  let base_price := pick_price_for_segment product customer_segment product.base_price
  let amount : ℚ := base_price * ((max 1 quantity : Int) : ℚ)
  let discount_value : ℚ :=
    match product.extra_offer_id with
    | none => 0
    | some o =>
        if o = "" then 0
        else scanConfigs o customer_segment amount (discount_rules_to_configs table)
  { sku := product.sku
    base_price := base_price
    segment := customer_segment
    quantity := quantity
    price := amount * (1 - discount_value)
    discount_applied := discount_value * 100 }

/-! ## Client registry and promo ledger (db.py) -/

/-- A row of the `users` table (fields consulted by the modelled flows). -/
structure User where
  id : Nat
  email : String
  tier : Option String
deriving Repr, DecidableEq

/-- A row of the `clients` table. -/
structure Client where
  id : Nat
  ragione_sociale : Option String
  piva : Option String
  email : Option String
  telefono : Option String
  listino : Option String
  stato : Option String
  note : Option String
  promo_enabled : Nat
  promo_points : Int
  promo_ticket_code : Option String
  user_id : Option Nat
deriving Repr, DecidableEq

/-- A row of the append-only `promo_logs` table. -/
structure PromoLog where
  client_id : Nat
  action_code : String
  points : Int
deriving Repr, DecidableEq

/-- The database state the modelled flows read and write. Table rows are
kept in rowid (insertion) order, which is the order an unordered SQLite
full-table scan delivers them in (no secondary indexes exist on these
tables). `next_client_id` models the AUTOINCREMENT counter. -/
structure DBState where
  users : List User
  clients : List Client
  promo_logs : List PromoLog
  next_client_id : Nat
deriving Repr, DecidableEq

/-- db.py `get_client_by_id`. -/
def get_client_by_id (st : DBState) (cid : Nat) : Option Client :=
  st.clients.find? (fun c => c.id = cid)

/-- `LOWER(email) = LOWER(?)`; a NULL column never matches. -/
def emailMatches (c : Client) (email : String) : Bool :=
  match c.email with
  | some m => strLower m = strLower email
  | none => false

/-- db.py `get_client_by_email`. -/
def get_client_by_email (st : DBState) (email : String) : Option Client :=
  st.clients.find? (fun c => emailMatches c email)

/-- db.py `find_client_by_email_or_piva`: one query whose WHERE clause is
the disjunction of the conditions for the truthy arguments, answered with
`fetchone()` — the first matching row in table order. Callers pass `none`
for Python-falsy (`None`/empty) values. -/
def find_client_by_email_or_piva (st : DBState) (email piva : Option String) :
    Option Client :=
  if email = none ∧ piva = none then none
  else
    st.clients.find? (fun c =>
      (match email with
       | some e => emailMatches c e
       | none => false) ||
      (match piva with
       | some p => c.piva = some p
       | none => false))

/-- The dict passed to `save_client`. -/
structure SaveData where
  id : Option Nat
  ragione_sociale : Option String
  piva : Option String
  email : Option String
  telefono : Option String
  listino : Option String
  stato : Option String
  note : Option String
  promo_enabled : Nat
  promo_points : Int
  promo_ticket_code : Option String
  user_id : Option Nat
deriving Repr, DecidableEq

/-- `1 if str(data.get("promo_enabled", 0)) in ("1", "true", "True") else 0`
restricted to integer inputs: only the literal `1` maps to `1`. -/
def normPromoEnabled (n : Nat) : Nat := if n = 1 then 1 else 0

/-- Truthiness of an optional integer id (`None` and `0` are falsy). -/
def idTruthy : Option Nat → Bool
  | some i => i ≠ 0
  | none => false

/-- db.py `save_client`. Returns the new state and the saved row id.
On the update path (`data["id"]` truthy) every listed column of the matching
row is overwritten, except that a falsy incoming ticket code keeps the
existing row's ticket (`promo_ticket_code or existing.get(...)`). On the
insert path a fresh row is appended. An update aimed at a non-existent id
writes nothing (the SQL UPDATE matches no row). -/
def save_client (st : DBState) (data : SaveData) : DBState × Nat :=
  let promo_enabled := normPromoEnabled data.promo_enabled
  let ticket0 := pyOrS data.promo_ticket_code none
  if idTruthy data.id then
    let cid := data.id.getD 0
    let existing := get_client_by_id st cid
    let ticket := pyOrS ticket0 (existing.bind (fun c => c.promo_ticket_code))
    let newClients := st.clients.map (fun c =>
      if c.id = cid then
        { id := c.id
          ragione_sociale := data.ragione_sociale
          piva := data.piva
          email := data.email
          telefono := data.telefono
          listino := data.listino
          stato := data.stato
          note := data.note
          promo_enabled := promo_enabled
          promo_points := data.promo_points
          promo_ticket_code := ticket
          user_id := data.user_id }
      else c)
    ({ st with clients := newClients }, cid)
  else
    let newClient : Client :=
      { id := st.next_client_id
        ragione_sociale := data.ragione_sociale
        piva := data.piva
        email := data.email
        telefono := data.telefono
        listino := data.listino
        stato := data.stato
        note := data.note
        promo_enabled := promo_enabled
        promo_points := data.promo_points
        promo_ticket_code := ticket0
        user_id := data.user_id }
    ({ st with
        clients := st.clients ++ [newClient]
        next_client_id := st.next_client_id + 1 },
      st.next_client_id)

/-- db.py `get_user_by_email` (`LOWER(email) = LOWER(?)`). -/
def get_user_by_email (st : DBState) (email : String) : Option User :=
  st.users.find? (fun u => strLower u.email = strLower email)

/-- db.py `link_client_to_user_by_email`. -/
def link_client_to_user_by_email (st : DBState) (email : Option String)
    (create_missing_client : Bool) (default_listino : String) : DBState :=
  match email with
  | none => st
  | some e =>
      if e = "" then st
      else
        match get_user_by_email st e with
        | none => st
        | some user =>
            match get_client_by_email st e with
            | some client =>
                if client.user_id ≠ some user.id then
                  { st with
                      clients := st.clients.map (fun c =>
                        if c.id = client.id then { c with user_id := some user.id } else c) }
                else st
            | none =>
                if create_missing_client then
                  { st with
                      clients := st.clients ++
                        [{ id := st.next_client_id
                           ragione_sociale := none
                           piva := none
                           email := some e
                           telefono := none
                           listino := some ((pyOrS user.tier (some default_listino)).getD "")
                           stato := some "attivo"
                           note := some ""
                           promo_enabled := 0
                           promo_points := 0
                           promo_ticket_code := none
                           user_id := some user.id }]
                      next_client_id := st.next_client_id + 1 }
                else st

/-- db.py `_generate_ticket_code` applied to the hex digest of `uuid4()`:
`f"XMAS-{uuid.uuid4().hex[:8].upper()}"`. The random digest string is an
explicit argument. -/
def mkTicketCode (uuidHex : String) : String :=
  "XMAS-" ++ strUpper (strTake uuidHex 8)

/-- db.py `add_promo_points`. Returns the re-read client (or `none` when
the client id does not exist) together with the new state. -/
def add_promo_points (st : DBState) (client_id : Nat) (action_code : String)
    (points : Int) (uuidHex : String) : Option Client × DBState :=
  match get_client_by_id st client_id with
  | none => (none, st)
  | some client =>
      let new_points := client.promo_points + points
      let ticket_code :=
        if ¬ sTruthy client.promo_ticket_code ∧ client.promo_enabled = 1 then
          some (mkTicketCode uuidHex)
        else client.promo_ticket_code
      let st1 : DBState :=
        { st with
            clients := st.clients.map (fun c =>
              if c.id = client_id then
                { c with promo_points := new_points, promo_ticket_code := ticket_code }
              else c)
            promo_logs := st.promo_logs ++ [⟨client_id, action_code, points⟩] }
      (get_client_by_id st1 client_id, st1)

/-- The tier if-chain of db.py `get_promo_summary` (lines 613-620). -/
def tierOfPoints (points : Int) : String :=
  if points ≥ 1000 then "max"
  else if points ≥ 850 then "tier2"
  else if points ≥ 350 then "tier1"
  else "base"

/-- The prize lists of db.py `get_promo_summary` (lines 622-644). -/
def prizesOfTier (tier : String) : List String :=
  if tier = "tier1" then
    ["1 premio disponibile",
     "Spedizione gratuita prime due settimane di gennaio",
     "Omaggi su prodotti trattati"]
  else if tier = "tier2" then
    ["Fino a 2 premi disponibili",
     "Spedizione gratuita prime due settimane di gennaio",
     "Sconto massimo sul fatturato di gennaio",
     "Omaggi prodotti trattati",
     "Sconto minimo 3 mesi su categoria trattata"]
  else if tier = "max" then
    ["Biglietto fortunato: tutti i vantaggi (max 3 premi)",
     "Spedizione gratuita prime due settimane di gennaio",
     "Sconto massimo sul fatturato di gennaio",
     "Omaggi prodotti trattati",
     "Sconto minimo 3 mesi su categoria trattata"]
  else []

/-- The summary payload of db.py `get_promo_summary`. -/
structure PromoSummary where
  points : Int
  actions : List PromoLog
  tier : String
  prizes_available : List String
  promo_enabled : Bool
  promo_ticket_code : Option String
deriving Repr, DecidableEq

/-- db.py `get_promo_summary`; the code returns `{}` for an unknown client,
modelled as `none`. `actions` is the ledger history newest first
(`ORDER BY id DESC` on an append-only table = reverse insertion order). -/
def get_promo_summary (st : DBState) (client_id : Nat) : Option PromoSummary :=
  match get_client_by_id st client_id with
  | none => none
  | some client =>
      let points := client.promo_points
      some
        { points := points
          actions := (st.promo_logs.filter (fun l => l.client_id = client_id)).reverse
          tier := tierOfPoints points
          prizes_available := prizesOfTier (tierOfPoints points)
          promo_enabled := client.promo_enabled = 1
          promo_ticket_code := client.promo_ticket_code }

/-- server.py `PROMO_POINTS`. -/
def PROMO_POINTS : List (String × Int) :=
  [("FOLLOW_SOCIAL", 5), ("ADD_BROADCAST", 50), ("ORDER_REMAN", 100),
   ("REACH_AVG_REVENUE", 200), ("UPSELL_REVENUE", 500), ("BRING_NEW_COMPANY", 1000)]

/-- Outcome of the `admin_promo_add_points` handler. -/
inductive GrantResponse
  | invalidPayload
  | clientNotFound
  | okGranted (client : Client) (summary : Option PromoSummary)
deriving Repr, DecidableEq

/-- server.py `admin_promo_add_points`: rejects a falsy client id or an
unknown action code with `invalid_payload` (HTTP 400), surfaces
`client_not_found` (HTTP 404) when `add_promo_points` returns nothing. -/
def admin_promo_add_points (st : DBState) (client_id : Option Nat)
    (action_code : String) (uuidHex : String) : GrantResponse × DBState :=
  match PROMO_POINTS.find? (fun e => e.1 = action_code) with
  | none => (.invalidPayload, st)
  | some entry =>
      if ¬ idTruthy client_id then (.invalidPayload, st)
      else
        let cid := client_id.getD 0
        let (updated, st1) := add_promo_points st cid action_code entry.2 uuidHex
        match updated with
        | none => (.clientNotFound, st1)
        | some c => (.okGranted c (get_promo_summary st1 cid), st1)

/-! ## Promo client import (server.py `admin_clients_import_promo`) -/

/-- `_clean(value) or None`: strip, and collapse empty to `None`. -/
def pyClean (v : Option String) : Option String :=
  match v with
  | none => none
  | some s => if strStrip s = "" then none else some (strStrip s)

/-- server.py `_valid_email`:
`"@" in value and "." in value.split("@")[-1]` (with falsy → False). -/
def valid_email (value : String) : Bool :=
  if value = "" then false
  else strContains value '@' && (afterLastAt value.data).contains '.'

/-- One spreadsheet row of the promo-client import, after the positional
padding/destructuring to 11 columns (cells as imported strings or `None`). -/
structure PromoImportRow where
  tipo : Option String
  ragione_sociale : Option String
  piva : Option String
  sdi : Option String
  regime_fiscale : Option String
  indirizzo : Option String
  email : Option String
  telefono : Option String
  source : Option String
  payment_pref : Option String
  listino : Option String
deriving Repr, DecidableEq

/-- Per-row outcome of the import loop. -/
inductive RowOutcome
  | rowError (reason : String)
  | rowUpdated
  | rowImported
deriving Repr, DecidableEq

/-- The body of the `for idx, row in enumerate(rows, ...)` loop of
server.py `admin_clients_import_promo`: clean the natural-key fields,
reject rows without both email and tax id or with a malformed email,
find-or-create via `find_client_by_email_or_piva` / `save_client`, then
`link_client_to_user_by_email(email)` (with its default arguments).
`promoClientData` is the `client_data` dict the loop builds (id `None`
for the create path, the matched client's id for the update path). -/
def promoClientData (row : PromoImportRow) (idv : Option Nat) : SaveData :=
  { id := idv
    ragione_sociale := pyClean row.ragione_sociale
    piva := pyClean row.piva
    email := pyClean row.email
    telefono := pyClean row.telefono
    listino := some ((pyClean row.listino).getD "rivenditore10")
    stato := some "attivo"
    note := some ""
    promo_enabled := 1
    promo_points := 0
    promo_ticket_code := none
    user_id := none }

def import_promo_row (st : DBState) (row : PromoImportRow) : DBState × RowOutcome :=
  let email := pyClean row.email
  let piva := pyClean row.piva
  if email = none ∧ piva = none then (st, .rowError "missing_email_and_piva")
  else if (match email with
           | some e => ! valid_email e
           | none => false) then (st, .rowError "invalid_email")
  else
    match find_client_by_email_or_piva st email piva with
    | some existing =>
        let st1 := (save_client st (promoClientData row (some existing.id))).1
        (link_client_to_user_by_email st1 email false "rivenditore10", .rowUpdated)
    | none =>
        let st1 := (save_client st (promoClientData row none)).1
        (link_client_to_user_by_email st1 email false "rivenditore10", .rowImported)

/-! ## Write operations and the ledger/counter relation (claim C2) -/

/-- The system's client-state write operations named by the spec: point
grants, client saves, promo-client import rows. -/
inductive WriteOp
  | grant (client_id : Nat) (action_code : String) (points : Int) (uuidHex : String)
  | save (data : SaveData)
  | importRow (row : PromoImportRow)
deriving Repr, DecidableEq

def applyOp (st : DBState) : WriteOp → DBState
  | .grant cid code pts hex => (add_promo_points st cid code pts hex).2
  | .save d => (save_client st d).1
  | .importRow r => (import_promo_row st r).1

def applyOps (st : DBState) (ops : List WriteOp) : DBState := ops.foldl applyOp st

/-- Sum of the points of one client's entries in a ledger list. -/
def logsSum (logs : List PromoLog) (cid : Nat) : Int :=
  ((logs.filter (fun l => l.client_id = cid)).map (fun l => l.points)).sum

/-- Sum of the ledger entries of one client. -/
def ledgerSum (st : DBState) (cid : Nat) : Int :=
  logsSum st.promo_logs cid

/-- The claimed invariant: every client's stored counter equals the sum of
its ledger entries. -/
def CounterMatchesLedger (st : DBState) : Prop :=
  ∀ c ∈ st.clients, c.promo_points = ledgerSum st c.id

instance : DecidablePred CounterMatchesLedger := fun st => by
  unfold CounterMatchesLedger; infer_instance

/-! ## Numeric cell normalisation (server.py `safe_float`, `safe_int`) -/

/-- A spreadsheet cell value as delivered by openpyxl: an integer, a float
(modelled as `ℚ`), or a string. -/
inductive Cell
  | intC (v : Int)
  | numC (v : ℚ)
  | strC (s : String)
deriving Repr, DecidableEq

def isDigitChar (c : Char) : Bool := '0' ≤ c && c ≤ '9'

def digitsToNat (l : List Char) : Nat :=
  l.foldl (fun a c => 10 * a + (c.toNat - '0'.toNat)) 0

/-- Python `float(s)` on the plain-decimal fragment `[+-]digits[.digits]`.
Exotic accepted forms (exponents, `inf`, `nan`, underscores) are outside
the modelled fragment and map to `none` (hence to the caller default). -/
def parseDecimal (l : List Char) : Option ℚ :=
  let signBody : ℚ × List Char :=
    match l with
    | '-' :: rest => (-1, rest)
    | '+' :: rest => (1, rest)
    | _ => (1, l)
  let body := signBody.2
  let intPart := body.takeWhile (fun c => c != '.')
  let dotRest := body.dropWhile (fun c => c != '.')
  let frac := match dotRest with
    | [] => []
    | _ :: t => t
  if frac.contains '.' then none
  else if ¬ (intPart.all isDigitChar ∧ frac.all isDigitChar) then none
  else if intPart = [] ∧ frac = [] then none
  else
    some (signBody.1 *
      ((digitsToNat intPart : ℚ) + (digitsToNat frac : ℚ) / (10 : ℚ) ^ frac.length))

/-- server.py `safe_float`. Numeric cells round-trip unchanged through
`str`/`float`; string cells are stripped, cleared of spaces and `€`, a
lone comma (with no dot) becomes the decimal separator, then parsed. -/
def safe_float (value : Option Cell) (default : ℚ) : ℚ :=
  match value with
  | none => default
  | some (.intC n) => (n : ℚ)
  | some (.numC q) => q
  | some (.strC s) =>
      let s1 := strStrip s
      if s1 = "" then default
      else
        let s2 := s1.data.filter (fun c => c != ' ' && c != '€')
        let s3 :=
          if s2.count ',' = 1 ∧ s2.count '.' = 0 then
            s2.map (fun c => if c = ',' then '.' else c)
          else s2
        (parseDecimal s3).getD default

/-- Python `int(s)` on `[+-]digits`. -/
def parseIntSimple (l : List Char) : Option Int :=
  match l with
  | '-' :: rest =>
      if rest ≠ [] ∧ rest.all isDigitChar then some (-(digitsToNat rest : Int)) else none
  | '+' :: rest =>
      if rest ≠ [] ∧ rest.all isDigitChar then some (digitsToNat rest : Int) else none
  | _ => if l ≠ [] ∧ l.all isDigitChar then some (digitsToNat l : Int) else none

/-- server.py `safe_int`. An integer cell survives the `str`/`int`
round-trip unchanged. A whole float `n.0` with `n ≥ 0` renders as `"n.0"`,
loses its dot to the thousands-separator removal and yields `10 * n`; any
other float cell fails `int()` and yields the default (the decimal
rendering of non-integral floats is outside the modelled fragment).
String cells follow the code: strip, not-applicable tokens, thousands
separators, else direct parse. -/
def safe_int (value : Option Cell) (default : Int) : Int :=
  match value with
  | none => default
  | some (.intC n) => n
  | some (.numC q) => if q.den = 1 ∧ 0 ≤ q.num then 10 * q.num else default
  | some (.strC s) =>
      let t := strStrip s
      if t = "" then default
      else if ["N", "NA", "N/A", "ND", "-", "NON DISPONIBILE"].contains (strUpper t) then
        default
      else
        let sclean := t.data.filter (fun c => c != ' ')
        let del := sclean.filter (fun c => c != '.' && c != ',')
        if del ≠ [] ∧ del.all isDigitChar then (digitsToNat del : Int)
        else (parseIntSimple sclean).getD default

/-! ## Catalog store (db.py `upsert_product`, `get_product_by_sku`) -/

/-- The dict handed to `upsert_product` (all keys the function reads; of
the `extra`/`extra_json` attribute map only `offer_id` is modelled, and
the `qty_stock`/`discount_*` dict lookups with default `0` are modelled
with `none` standing for a missing key). -/
structure UpsertData where
  sku : String
  name : Option String
  codice : Option String
  image_hd : Option String
  image_thumb : Option String
  gallery : List String
  gallery_json : List String
  description_html : Option String
  desc_html : Option String
  base_price : Option ℚ
  unit : Option String
  markup_riv10 : Option ℚ
  markup_riv : Option ℚ
  markup_dist : Option ℚ
  price_riv10 : Option ℚ
  price_riv : Option ℚ
  price_dist : Option ℚ
  price_distributore : Option ℚ
  price_rivenditore : Option ℚ
  price_rivenditore10 : Option ℚ
  qty_stock : Option Int
  discount_dist_percent : Option ℚ
  discount_riv_percent : Option ℚ
  discount_riv10_percent : Option ℚ
  status : Option String
  extra_offer_id : Option String
deriving Repr, DecidableEq

/-- The `payload` dict of db.py `upsert_product` (lines 699-724). -/
def upsertPayload (data : UpsertData) : Product :=
  { sku := data.sku
    name := data.name
    codice := data.codice
    image_hd := data.image_hd
    image_thumb := data.image_thumb
    gallery_json := pyOrL data.gallery data.gallery_json
    description_html := pyOrS data.description_html data.desc_html
    base_price := data.base_price
    unit := data.unit
    markup_riv10 := data.markup_riv10
    markup_riv := data.markup_riv
    markup_dist := data.markup_dist
    price_riv10 := pyOrQ data.price_riv10 data.price_rivenditore10
    price_riv := pyOrQ data.price_riv data.price_rivenditore
    price_dist := pyOrQ data.price_dist data.price_distributore
    price_distributore := pyOrQ data.price_distributore data.price_dist
    price_rivenditore := pyOrQ data.price_rivenditore data.price_riv
    price_rivenditore10 := pyOrQ data.price_rivenditore10 data.price_riv10
    qty_stock := some (data.qty_stock.getD 0)
    discount_dist_percent := some (data.discount_dist_percent.getD 0)
    discount_riv_percent := some (data.discount_riv_percent.getD 0)
    discount_riv10_percent := some (data.discount_riv10_percent.getD 0)
    status := pyOrS data.status (some "attivo")
    extra_offer_id := data.extra_offer_id }

/-- db.py `get_product_by_sku` on the products table (rows in rowid order;
`sku` is the primary key). -/
def get_product_by_sku (table : List Product) (sku : String) : Option Product :=
  table.find? (fun p => p.sku = sku)

/-- db.py `upsert_product`:
`INSERT ... ON CONFLICT(sku) DO UPDATE SET <every non-key column>`.
A conflicting row is overwritten in place (the rowid is kept), otherwise
the new row is appended. -/
def upsert_product (table : List Product) (data : UpsertData) : List Product :=
  if table.any (fun p => p.sku = (upsertPayload data).sku) then
    table.map (fun p => if p.sku = (upsertPayload data).sku then upsertPayload data else p)
  else table ++ [upsertPayload data]

/-! ## Price-list import (server.py `admin_price_list_import`) -/

/-- One data row of the price-list workbook after header-mapped cell
extraction (the header mapping itself is a deterministic per-workbook
column lookup; text columns arrive as strings, numeric columns as cells). -/
structure PriceListRow where
  codice : Option String
  descrizione : Option String
  prezzo_distributore : Option Cell
  prezzo_rivenditore : Option Cell
  prezzo_rivenditore10 : Option Cell
  qty_stock : Option Cell
  status : Option String
deriving Repr, DecidableEq

/-- The per-row body of the import loop (server.py lines 1007-1046):
`none` when the row is skipped (`not codice and not descrizione`),
otherwise the `product_data` dict handed to `upsert_product`. -/
def price_row_to_data (row : PriceListRow) : Option UpsertData :=
  let codice := row.codice.map strStrip
  let descrizione := row.descrizione.map strStrip
  if ¬ sTruthy codice ∧ ¬ sTruthy descrizione then none
  else
    let sku :=
      if sTruthy codice then codice.getD ""
      else if sTruthy descrizione then strTake (descrizione.getD "") 20
      else ""
    let base_price := safe_float row.prezzo_rivenditore 0
    let price_dist := safe_float row.prezzo_distributore 0
    let price_riv := safe_float row.prezzo_rivenditore 0
    let price_riv10 := safe_float row.prezzo_rivenditore10 0
    let qty := safe_int row.qty_stock 0
    let status_norm :=
      match row.status with
      | some s => strUpper (strStrip s)
      | none => "N"
    some
      { sku := sku
        name := pyOrS descrizione (some sku)
        codice := pyOrS codice (some sku)
        image_hd := none
        image_thumb := none
        gallery := []
        gallery_json := []
        description_html := none
        desc_html := some (descrizione.getD "")
        base_price := some base_price
        unit := some "pz"
        markup_riv10 := none
        markup_riv := none
        markup_dist := none
        price_riv10 := none
        price_riv := none
        price_dist := none
        price_distributore := some price_dist
        price_rivenditore := some price_riv
        price_rivenditore10 := some price_riv10
        qty_stock := some qty
        discount_dist_percent := some 0
        discount_riv_percent := some 0
        discount_riv10_percent := some 0
        status := some (if status_norm = "S" then "attivo" else "non_disponibile")
        extra_offer_id := none }

/-- Aggregate result of one import run. -/
structure ImportResult where
  table : List Product
  inserted : Nat
  updated : Nat
  skipped : Nat
deriving Repr, DecidableEq

/-- The import loop of `admin_price_list_import`: per row, either skip, or
look up the SKU (`get_product_by_sku`), upsert, and count the row as
updated (SKU present) or inserted (SKU new). -/
def import_price_rows (table : List Product) : List PriceListRow → ImportResult
  | [] => { table := table, inserted := 0, updated := 0, skipped := 0 }
  | row :: rest =>
      match price_row_to_data row with
      | none =>
          let r := import_price_rows table rest
          { r with skipped := r.skipped + 1 }
      | some d =>
          let existing := get_product_by_sku table d.sku
          let r := import_price_rows (upsert_product table d) rest
          match existing with
          | some _ => { r with updated := r.updated + 1 }
          | none => { r with inserted := r.inserted + 1 }

/-! ## Spec-side comparison definition and proof helpers -/

/-- Modelled from the spec: "first match by email then by tax id" — the
reconciliation rule of spec §4.6 taken literally: look a client up by
email first, and only when no row matches the email fall back to a
tax-id lookup. Stated for comparison with the code's single-query
`find_client_by_email_or_piva`. -/
def findFirstByEmailThenPiva (st : DBState) (email piva : Option String) :
    Option Client :=
  let byEmail :=
    match email with
    | some e => get_client_by_email st e
    | none => none
  match byEmail with
  | some c => some c
  | none =>
      match piva with
      | some p => st.clients.find? (fun c => c.piva = some p)
      | none => none

/-- The complement of the import loop's `invalid_email` guard: the row
either has no (cleaned) email, or a well-formed one. -/
def emailOkForImport (row : PromoImportRow) : Bool :=
  match pyClean row.email with
  | some e => valid_email e
  | none => true

/-- Predicate singling out point-grant operations. -/
def WriteOp.isGrant : WriteOp → Bool
  | .grant _ _ _ _ => true
  | _ => false

/-- The sku column of a products table, in row order. -/
def productSkus (t : List Product) : List String := t.map (fun p => p.sku)

/-- The sku set the catalog holds after an import run, computed from the
initial sku list alone (specification device for the keys of
`import_price_rows`). -/
def skusAfter (ks : List String) : List PriceListRow → List String
  | [] => ks
  | row :: rest =>
      match price_row_to_data row with
      | none => skusAfter ks rest
      | some d => if d.sku ∈ ks then skusAfter ks rest else skusAfter (ks ++ [d.sku]) rest

/-- Lookup of the bracket list of one segment inside one config's
insertion-ordered `rules` dict. -/
def lookupSeg (segs : List (String × List Bracket)) (seg : String) : List Bracket :=
  ((segs.find? (fun e => e.1 = seg)).map Prod.snd).getD []

/-- Lookup of the bracket list for (offer, segment) in a configs list. -/
def configSegRules (cfgs : List Config) (offer seg : String) : List Bracket :=
  match cfgs.find? (fun c => c.id = offer) with
  | none => []
  | some c => lookupSeg c.rules seg

/-! ## Concrete fixtures for counterexamples and witnesses -/

/-- A product record with only a sku and a base price set. -/
def mkBareProduct (sku : String) (base : Option ℚ) : Product :=
  { sku := sku, name := none, codice := none, image_hd := none, image_thumb := none
    gallery_json := [], description_html := none, base_price := base, unit := none
    markup_riv10 := none, markup_riv := none, markup_dist := none
    price_riv10 := none, price_riv := none, price_dist := none
    price_distributore := none, price_rivenditore := none, price_rivenditore10 := none
    qty_stock := none, discount_dist_percent := none, discount_riv_percent := none
    discount_riv10_percent := none, status := none, extra_offer_id := none }

/-- The two brackets of the spec's bracket-selection example, for offer
"X" and the reseller segment. -/
def c1ExampleRules : List DiscountRuleRow :=
  [⟨"X", "rivenditore", 0, some 99, 5, none⟩,
   ⟨"X", "rivenditore", 100, none, 15, none⟩]

/-- A client row fixture. -/
def mkClient (id : Nat) (email piva : Option String) : Client :=
  { id := id, ragione_sociale := none, piva := piva, email := email, telefono := none
    listino := some "rivenditore10", stato := some "attivo", note := some ""
    promo_enabled := 0, promo_points := 0, promo_ticket_code := none, user_id := none }

/-- An import row fixture carrying only natural keys and a company name. -/
def mkImportRow (ragione email piva : Option String) : PromoImportRow :=
  { tipo := none, ragione_sociale := ragione, piva := piva, sdi := none
    regime_fiscale := none, indirizzo := none, email := email, telefono := none
    source := none, payment_pref := none, listino := none }

/-- C3 fixture: two clients; a and b have distinct emails and tax ids. -/
def c3State : DBState :=
  { users := []
    clients := [mkClient 1 (some "a@x.com") (some "P1"),
                mkClient 2 (some "b@x.com") (some "P2")]
    promo_logs := []
    next_client_id := 3 }

/-- C3 fixture: a row whose email matches client 2 and whose tax id
matches client 1. -/
def c3Row : PromoImportRow := mkImportRow (some "NewCo") (some "b@x.com") (some "P1")

/-- C2 fixture: create an enrolled client, grant it 5 points, then
re-import a row matching it. -/
def c2SaveData : SaveData :=
  { id := none, ragione_sociale := some "Acme", piva := some "P9"
    email := some "c@x.com", telefono := none, listino := some "rivenditore10"
    stato := some "attivo", note := some "", promo_enabled := 1, promo_points := 0
    promo_ticket_code := none, user_id := none }

def c2Ops : List WriteOp :=
  [.save c2SaveData,
   .grant 1 "FOLLOW_SOCIAL" 5 "abcdef1234567890abcdef1234567890",
   .importRow (mkImportRow (some "Acme") (some "c@x.com") (some "P9"))]

def emptyDB : DBState := { users := [], clients := [], promo_logs := [], next_client_id := 1 }

/-- C5 witness fixture: a one-row workbook. -/
def c5Row : PriceListRow :=
  { codice := some "A1", descrizione := some "Widget"
    prezzo_distributore := some (.intC 7), prezzo_rivenditore := some (.intC 10)
    prezzo_rivenditore10 := some (.intC 9), qty_stock := some (.intC 3)
    status := some "S" }

/-- C7 witness fixture: a client holding 349 points. -/
def c7State : DBState :=
  { emptyDB with clients := [{ mkClient 1 none none with promo_points := 349 }] }

/-! # Theorems -/

/-! ## Shared helper lemmas -/

/-- `find?` by id commutes with mapping an id-preserving update over the
client list. -/
theorem find_id_map (l : List Client) (cid : Nat) (g : Client → Client)
    (hg : ∀ c, (g c).id = c.id) :
    List.find? (fun c => c.id = cid) (l.map g)
      = (List.find? (fun c => c.id = cid) l).map g := by
  have hcomp : ((fun c : Client => decide (c.id = cid)) ∘ g)
      = fun c : Client => decide (c.id = cid) := by
    funext c
    simp [Function.comp, hg]
  rw [List.find?_map, hcomp]

/-! ## C7 — loyalty tier boundaries -/

/-- C7: the tier derived from accumulated points uses inclusive
thresholds, highest matching first: ≥ 1000 → "max", ≥ 850 → "tier2",
≥ 350 → "tier1", else "base"; 349 points give tier "base" with an empty
prize list, 350 give "tier1" with exactly 3 prize entries, 1000 give
"max"; and every summary produced by `get_promo_summary` carries the tier
of its points and that tier's fixed prize list. -/
theorem promo_tier_boundaries :
    (∀ p : Int, 1000 ≤ p → tierOfPoints p = "max") ∧
    (∀ p : Int, 850 ≤ p → p < 1000 → tierOfPoints p = "tier2") ∧
    (∀ p : Int, 350 ≤ p → p < 850 → tierOfPoints p = "tier1") ∧
    (∀ p : Int, p < 350 → tierOfPoints p = "base") ∧
    tierOfPoints 349 = "base" ∧ prizesOfTier (tierOfPoints 349) = [] ∧
    tierOfPoints 350 = "tier1" ∧ (prizesOfTier (tierOfPoints 350)).length = 3 ∧
    tierOfPoints 1000 = "max" ∧
    (∀ st cid s, get_promo_summary st cid = some s →
      s.tier = tierOfPoints s.points ∧ s.prizes_available = prizesOfTier s.tier) := by
  refine ⟨?_, ?_, ?_, ?_, by decide, by decide, by decide, by decide, by decide, ?_⟩
  · intro p h
    simp only [tierOfPoints]
    rw [if_pos (by omega)]
  · intro p h1 h2
    simp only [tierOfPoints]
    rw [if_neg (by omega), if_pos (by omega)]
  · intro p h1 h2
    simp only [tierOfPoints]
    rw [if_neg (by omega), if_neg (by omega), if_pos (by omega)]
  · intro p h
    simp only [tierOfPoints]
    rw [if_neg (by omega), if_neg (by omega), if_neg (by omega)]
  · intro st cid s h
    unfold get_promo_summary at h
    rcases hc : get_client_by_id st cid with _ | c
    · rw [hc] at h
      simp at h
    · rw [hc] at h
      simp only [Option.some.injEq] at h
      subst h
      exact ⟨rfl, rfl⟩

/-- Witness for C7 at points 1200 / 900 / 400 / 100 and at a concrete
stored client holding 349 points. -/
theorem promo_tier_boundaries_witness :
    tierOfPoints 1200 = "max" ∧ tierOfPoints 900 = "tier2" ∧
    tierOfPoints 400 = "tier1" ∧ tierOfPoints 100 = "base" ∧
    ((⟨349, [], "base", [], false, none⟩ : PromoSummary).tier
        = tierOfPoints (349 : Int) ∧
      (⟨349, [], "base", [], false, none⟩ : PromoSummary).prizes_available
        = prizesOfTier (⟨349, [], "base", [], false, none⟩ : PromoSummary).tier) := by
  obtain ⟨h1, h2, h3, h4, _, _, _, _, _, h10⟩ := promo_tier_boundaries
  exact ⟨h1 1200 (by decide), h2 900 (by decide) (by decide),
    h3 400 (by decide) (by decide), h4 100 (by decide),
    h10 c7State 1 ⟨349, [], "base", [], false, none⟩ (by decide)⟩

/-! ## C9 — grantPoints on an unknown client id -/

/-- C9: when the client id does not exist, `add_promo_points` returns
`none` and leaves the state untouched (no ledger row, no client change),
and the `admin_promo_add_points` handler surfaces `client_not_found` to
the caller, again with the state unchanged. -/
theorem grant_points_client_not_found :
    (∀ st cid code pts hex, get_client_by_id st cid = none →
      add_promo_points st cid code pts hex = (none, st)) ∧
    (∀ st cidOpt code hex entry,
      PROMO_POINTS.find? (fun e => e.1 = code) = some entry →
      idTruthy cidOpt = true →
      get_client_by_id st (cidOpt.getD 0) = none →
      admin_promo_add_points st cidOpt code hex = (.clientNotFound, st)) := by
  constructor
  · intro st cid code pts hex h
    unfold add_promo_points
    rw [h]
  · intro st cidOpt code hex entry hfind hid hnone
    unfold admin_promo_add_points add_promo_points
    rw [hfind]
    simp [hid, hnone]

/-- Witness for C9: granting to the absent client id 5 of the empty
database fails with not-found and changes nothing. -/
theorem grant_points_client_not_found_witness :
    add_promo_points emptyDB 5 "FOLLOW_SOCIAL" 5 "0123456789abcdef" = (none, emptyDB) ∧
    admin_promo_add_points emptyDB (some 5) "FOLLOW_SOCIAL" "0123456789abcdef"
      = (.clientNotFound, emptyDB) := by
  constructor
  · exact grant_points_client_not_found.1 emptyDB 5 "FOLLOW_SOCIAL" 5
      "0123456789abcdef" (by decide)
  · exact grant_points_client_not_found.2 emptyDB (some 5) "FOLLOW_SOCIAL"
      "0123456789abcdef" ("FOLLOW_SOCIAL", 5) (by decide) (by decide) (by decide)

/-! ## C6 — quantity floor (corrected) -/

/-- C6 counterexample: the returned pricing results for quantity 0 and
quantity 1 are not the same — the payload echoes the requested quantity
(0 vs 1), so `resolvePrice(p, seg, 0)` does not behave identically to
`resolvePrice(p, seg, 1)` as a whole result. -/
theorem quantity_floor_counterexample :
    compute_price_with_discounts [] (mkBareProduct "SKU6" (some 10)) "rivenditore" 0
      ≠ compute_price_with_discounts [] (mkBareProduct "SKU6" (some 10)) "rivenditore" 1 := by
  intro h
  have h2 := congrArg PriceResult.quantity h
  simp [compute_price_with_discounts] at h2

/-- C6 amended: for quantity 0 (or any non-positive quantity) the line
amount is `basePrice * max(1, quantity)` and the pricing result agrees
with the quantity-1 result in every field except the echoed `quantity`
input. -/
theorem quantity_floor_amended (table : List DiscountRuleRow) (p : Product)
    (seg : String) (q : Int) (hq : q ≤ 0) :
    compute_price_with_discounts table p seg q
      = { compute_price_with_discounts table p seg 1 with quantity := q } := by
  have hmax : max 1 q = 1 := by omega
  unfold compute_price_with_discounts
  rw [hmax, max_self]

/-- Witness for C6 at quantity 0 on a concrete product. -/
theorem quantity_floor_amended_witness :
    compute_price_with_discounts [] (mkBareProduct "SKU6" (some 10)) "rivenditore" 0
      = { compute_price_with_discounts [] (mkBareProduct "SKU6" (some 10)) "rivenditore" 1
            with quantity := 0 } :=
  quantity_floor_amended [] (mkBareProduct "SKU6" (some 10)) "rivenditore" 0 (by decide)

/-! ## C4 — ticket code generation and stability -/

/-- Uppercasing a lowercase hexadecimal character yields an uppercase
hexadecimal character. -/
theorem upperChar_hex (c : Char) (h : c ∈ "0123456789abcdef".data) :
    upperChar c ∈ "0123456789ABCDEF".data := by
  fin_cases h <;> decide

/-- A generated ticket code is never the empty string. -/
theorem mkTicketCode_ne_empty (hex : String) : mkTicketCode hex ≠ "" := by
  intro h
  have h2 := congrArg String.data h
  simp [mkTicketCode] at h2

/-- `add_promo_points` on an existing client: the returned (re-read)
client is the stored one with the counter bumped and the ticket set by
the generation rule. -/
theorem add_promo_points_found (st : DBState) (cid : Nat) (code : String)
    (pts : Int) (hex : String) (c : Client)
    (h : get_client_by_id st cid = some c) :
    (add_promo_points st cid code pts hex).1 = some
      { c with
          promo_points := c.promo_points + pts
          promo_ticket_code :=
            if ¬ sTruthy c.promo_ticket_code ∧ c.promo_enabled = 1 then
              some (mkTicketCode hex)
            else c.promo_ticket_code } := by
  have hcid : c.id = cid := by
    have h2 := List.find?_some h
    simpa using h2
  unfold add_promo_points
  rw [h]
  show get_client_by_id _ cid = _
  unfold get_client_by_id
  rw [find_id_map _ cid _ (fun x => by by_cases hx : x.id = cid <;> simp [hx])]
  unfold get_client_by_id at h
  rw [h]
  simp [hcid]

/-- Reading the granted client back from the post-grant state agrees with
the value `add_promo_points` returns. -/
theorem add_promo_points_get (st : DBState) (cid : Nat) (code : String)
    (pts : Int) (hex : String) :
    get_client_by_id (add_promo_points st cid code pts hex).2 cid
      = (add_promo_points st cid code pts hex).1 := by
  unfold add_promo_points
  rcases hg : get_client_by_id st cid with _ | c
  · simpa using hg
  · rfl

/-- C4: `grantPoints` generates a ticket code exactly when the client is
promo-enrolled and has no ticket yet; the code is the fixed prefix
`XMAS-` followed by 8 uppercase hexadecimal characters (from the 32
lowercase hex digits of a uuid4); an existing non-empty ticket is never
changed; and two consecutive grants to an enrolled, ticketless client
produce exactly one ticket code, unchanged by the second grant. -/
theorem ticket_code_generation :
    (∀ hex : String, hex.data.length = 32 →
      (∀ c ∈ hex.data, c ∈ "0123456789abcdef".data) →
      ∃ tail : String, mkTicketCode hex = "XMAS-" ++ tail ∧
        tail.data.length = 8 ∧ ∀ c ∈ tail.data, c ∈ "0123456789ABCDEF".data) ∧
    (∀ st cid code pts hex c, get_client_by_id st cid = some c →
      c.promo_ticket_code = none → c.promo_enabled = 1 →
      (add_promo_points st cid code pts hex).1 = some
        { c with promo_points := c.promo_points + pts
                 promo_ticket_code := some (mkTicketCode hex) }) ∧
    (∀ st cid code pts hex c, get_client_by_id st cid = some c →
      c.promo_ticket_code = none → c.promo_enabled ≠ 1 →
      (add_promo_points st cid code pts hex).1 = some
        { c with promo_points := c.promo_points + pts }) ∧
    (∀ st cid code pts hex c t, get_client_by_id st cid = some c →
      c.promo_ticket_code = some t → t ≠ "" →
      (add_promo_points st cid code pts hex).1 = some
        { c with promo_points := c.promo_points + pts }) ∧
    (∀ st cid code1 pts1 hex1 code2 pts2 hex2 c,
      get_client_by_id st cid = some c →
      c.promo_ticket_code = none → c.promo_enabled = 1 →
      (add_promo_points (add_promo_points st cid code1 pts1 hex1).2
          cid code2 pts2 hex2).1 = some
        { c with promo_points := c.promo_points + pts1 + pts2
                 promo_ticket_code := some (mkTicketCode hex1) }) := by
  refine ⟨?_, ?_, ?_, ?_, ?_⟩
  · intro hex hlen hhex
    refine ⟨strUpper (strTake hex 8), rfl, ?_, ?_⟩
    · simp [strUpper, strTake, hlen]
    · intro c hc
      simp only [strUpper, strTake] at hc
      obtain ⟨c', hc', rfl⟩ := List.mem_map.mp hc
      exact upperChar_hex c' (hhex c' (List.mem_of_mem_take hc'))
  · intro st cid code pts hex c h ht he
    rw [add_promo_points_found st cid code pts hex c h]
    simp [ht, he, sTruthy]
  · intro st cid code pts hex c h ht he
    rw [add_promo_points_found st cid code pts hex c h]
    simp [ht, he, sTruthy]
  · intro st cid code pts hex c t h ht hne
    rw [add_promo_points_found st cid code pts hex c h]
    simp [ht, hne, sTruthy]
  · intro st cid code1 pts1 hex1 code2 pts2 hex2 c h ht he
    have h1 := add_promo_points_found st cid code1 pts1 hex1 c h
    rw [ht] at h1
    have hcond : ¬ sTruthy (none : Option String) = true ∧ c.promo_enabled = 1 :=
      ⟨by simp [sTruthy], he⟩
    rw [if_pos hcond] at h1
    have hget : get_client_by_id (add_promo_points st cid code1 pts1 hex1).2 cid
        = some { c with promo_points := c.promo_points + pts1
                        promo_ticket_code := some (mkTicketCode hex1) } := by
      rw [add_promo_points_get]
      simpa using h1
    have h2 := add_promo_points_found (add_promo_points st cid code1 pts1 hex1).2
      cid code2 pts2 hex2 _ hget
    rw [h2]
    simp [sTruthy, mkTicketCode_ne_empty hex1]

/-- C4 witness fixture and instantiation: an enrolled, ticketless client,
a 32-digit lowercase uuid hex, and two consecutive grants. -/
theorem ticket_code_generation_witness :
    (∃ tail : String,
      mkTicketCode "0123456789abcdef0123456789abcdef" = "XMAS-" ++ tail ∧
        tail.data.length = 8 ∧ ∀ c ∈ tail.data, c ∈ "0123456789ABCDEF".data) ∧
    (add_promo_points
        { emptyDB with clients := [{ mkClient 1 none none with promo_enabled := 1 }] }
        1 "FOLLOW_SOCIAL" 5 "0123456789abcdef0123456789abcdef").1 = some
      { mkClient 1 none none with
          promo_enabled := 1
          promo_points := 5
          promo_ticket_code := some (mkTicketCode "0123456789abcdef0123456789abcdef") } ∧
    (add_promo_points
        (add_promo_points
          { emptyDB with clients := [{ mkClient 1 none none with promo_enabled := 1 }] }
          1 "FOLLOW_SOCIAL" 5 "0123456789abcdef0123456789abcdef").2
        1 "ADD_BROADCAST" 50 "ffffffffffffffffffffffffffffffff").1 = some
      { mkClient 1 none none with
          promo_enabled := 1
          promo_points := 55
          promo_ticket_code := some (mkTicketCode "0123456789abcdef0123456789abcdef") } := by
  obtain ⟨h1, h2, _, _, h5⟩ := ticket_code_generation
  refine ⟨h1 "0123456789abcdef0123456789abcdef" (by decide) (by decide), ?_, ?_⟩
  · exact h2 _ 1 "FOLLOW_SOCIAL" 5 "0123456789abcdef0123456789abcdef"
      { mkClient 1 none none with promo_enabled := 1 } (by decide) (by decide) (by decide)
  · exact h5 _ 1 "FOLLOW_SOCIAL" 5 "0123456789abcdef0123456789abcdef"
      "ADD_BROADCAST" 50 "ffffffffffffffffffffffffffffffff"
      { mkClient 1 none none with promo_enabled := 1 } (by decide) (by decide) (by decide)

/-! ## C8 — segment price fallback -/

/-- C8: price resolution uses the product's explicit price for the
requested segment when present and non-null (either storage column);
otherwise it falls back to the product's generic base price, and to 0
when that is also absent; an unknown segment also falls back to the base
price; in particular a product lacking both reseller10 price columns is
priced at its base price for segment `rivenditore10`, and with quantity 1
and no offer the returned price equals that base price. -/
theorem segment_price_fallback :
    (∀ table p q v, p.price_distributore = some v →
      (compute_price_with_discounts table p "distributore" q).base_price = v) ∧
    (∀ table p q v, p.price_rivenditore = some v →
      (compute_price_with_discounts table p "rivenditore" q).base_price = v) ∧
    (∀ table p q v, p.price_rivenditore10 = some v →
      (compute_price_with_discounts table p "rivenditore10" q).base_price = v) ∧
    (∀ table p q v, p.price_rivenditore10 = none → p.price_riv10 = some v →
      (compute_price_with_discounts table p "rivenditore10" q).base_price = v) ∧
    (∀ table p q b, p.price_rivenditore10 = none → p.price_riv10 = none →
      p.base_price = some b → b ≠ 0 →
      (compute_price_with_discounts table p "rivenditore10" q).base_price = b) ∧
    (∀ table p q seg,
      p.price_distributore = none → p.price_dist = none →
      p.price_rivenditore = none → p.price_riv = none →
      p.price_rivenditore10 = none → p.price_riv10 = none →
      p.base_price = none →
      (compute_price_with_discounts table p seg q).base_price = 0) ∧
    (∀ table p q seg b,
      seg ≠ "distributore" → seg ≠ "rivenditore" → seg ≠ "rivenditore10" →
      p.base_price = some b → b ≠ 0 →
      (compute_price_with_discounts table p seg q).base_price = b) ∧
    (∀ table p b, p.price_rivenditore10 = none → p.price_riv10 = none →
      p.base_price = some b → b ≠ 0 → p.extra_offer_id = none →
      (compute_price_with_discounts table p "rivenditore10" 1).base_price = b ∧
      (compute_price_with_discounts table p "rivenditore10" 1).price = b) := by
  refine ⟨?_, ?_, ?_, ?_, ?_, ?_, ?_, ?_⟩
  · intro table p q v h
    simp [compute_price_with_discounts, pick_price_for_segment, h]
  · intro table p q v h
    simp [compute_price_with_discounts, pick_price_for_segment, h]
  · intro table p q v h
    simp [compute_price_with_discounts, pick_price_for_segment, h]
  · intro table p q v h1 h2
    simp [compute_price_with_discounts, pick_price_for_segment, h1, h2]
  · intro table p q b h1 h2 hb hb0
    simp [compute_price_with_discounts, pick_price_for_segment, baseFallback,
      pyOrQ, qTruthy, h1, h2, hb, hb0]
  · intro table p q seg h1 h2 h3 h4 h5 h6 hb
    simp [compute_price_with_discounts, pick_price_for_segment, baseFallback,
      pyOrQ, qTruthy, h1, h2, h3, h4, h5, h6, hb]
  · intro table p q seg b hs1 hs2 hs3 hb hb0
    simp [compute_price_with_discounts, pick_price_for_segment, baseFallback,
      pyOrQ, qTruthy, hs1, hs2, hs3, hb, hb0]
  · intro table p b h1 h2 hb hb0 hoff
    constructor
    · simp [compute_price_with_discounts, pick_price_for_segment, baseFallback,
        pyOrQ, qTruthy, h1, h2, hb, hb0]
    · simp [compute_price_with_discounts, pick_price_for_segment, baseFallback,
        pyOrQ, qTruthy, h1, h2, hb, hb0, hoff]

/-- C8 witness: a product with base price 10 and no reseller10 price is
priced at 10 for segment `rivenditore10`. -/
theorem segment_price_fallback_witness :
    (compute_price_with_discounts [] (mkBareProduct "SKU8" (some 10))
        "rivenditore10" 1).base_price = 10 ∧
    (compute_price_with_discounts [] (mkBareProduct "SKU8" (some 10))
        "rivenditore10" 1).price = 10 := by
  have h := segment_price_fallback
  exact h.2.2.2.2.2.2.2 [] (mkBareProduct "SKU8" (some 10)) 10
    (by decide) (by decide) (by decide) (by decide) (by decide)

/-! ## Helper lemmas for the import flows (C3, C10) -/

/-- With no duplicate ids, looking a member client up by its id finds
exactly that client. -/
theorem find_nodup_mem (l : List Client) (c : Client)
    (hn : (l.map (fun x => x.id)).Nodup) (hc : c ∈ l) :
    l.find? (fun x => x.id = c.id) = some c := by
  induction l with
  | nil => cases hc
  | cons a t ih =>
      rcases List.mem_cons.mp hc with rfl | hct
      · simp [List.find?_cons]
      · have hn' := hn
        simp only [List.map_cons, List.nodup_cons] at hn'
        have hane : ¬ a.id = c.id := by
          intro hEq
          exact hn'.1 (hEq ▸ List.mem_map.mpr ⟨c, hct, rfl⟩)
        rw [List.find?_cons]
        have hd : (decide (a.id = c.id)) = false := by simp [hane]
        rw [hd]
        exact ih hn'.2 hct

/-- An accepted import row matching an existing client takes the
update/link path. -/
theorem import_promo_row_updated (st : DBState) (row : PromoImportRow) (c : Client)
    (h1 : ¬ (pyClean row.email = none ∧ pyClean row.piva = none))
    (h2 : emailOkForImport row = true)
    (hfind : find_client_by_email_or_piva st (pyClean row.email) (pyClean row.piva)
      = some c) :
    import_promo_row st row =
      (link_client_to_user_by_email
          (save_client st (promoClientData row (some c.id))).1
          (pyClean row.email) false "rivenditore10",
        .rowUpdated) := by
  simp only [import_promo_row]
  rw [if_neg h1]
  have hb : (match pyClean row.email with
             | some e => ! valid_email e
             | none => false) = false := by
    unfold emailOkForImport at h2
    rcases he : pyClean row.email with _ | s
    · rfl
    · rw [he] at h2
      simpa using h2
  rw [hb]
  simp only [Bool.false_eq_true, if_false]
  rw [hfind]

/-- An accepted import row matching no existing client takes the
create/link path. -/
theorem import_promo_row_created (st : DBState) (row : PromoImportRow)
    (h1 : ¬ (pyClean row.email = none ∧ pyClean row.piva = none))
    (h2 : emailOkForImport row = true)
    (hfind : find_client_by_email_or_piva st (pyClean row.email) (pyClean row.piva)
      = none) :
    import_promo_row st row =
      (link_client_to_user_by_email
          (save_client st (promoClientData row none)).1
          (pyClean row.email) false "rivenditore10",
        .rowImported) := by
  simp only [import_promo_row]
  rw [if_neg h1]
  have hb : (match pyClean row.email with
             | some e => ! valid_email e
             | none => false) = false := by
    unfold emailOkForImport at h2
    rcases he : pyClean row.email with _ | s
    · rfl
    · rw [he] at h2
      simpa using h2
  rw [hb]
  simp only [Bool.false_eq_true, if_false]
  rw [hfind]

/-- A `save_client` update leaves the id column unchanged. -/
theorem save_client_update_ids (st : DBState) (d : SaveData) (cid : Nat)
    (hid : d.id = some cid) (h0 : cid ≠ 0) :
    (save_client st d).1.clients.map (fun x => x.id)
      = st.clients.map (fun x => x.id) := by
  have hb : idTruthy (some cid) = true := by simp [idTruthy, h0]
  unfold save_client
  rw [hid, if_pos hb]
  simp only [List.map_map]
  apply List.map_congr_left
  intro a _
  by_cases ha : a.id = cid <;> simp [Function.comp, ha]

/-- A `save_client` insert appends exactly one row carrying the
AUTOINCREMENT id. -/
theorem save_client_insert_ids (st : DBState) (d : SaveData)
    (hid : idTruthy d.id = false) :
    (save_client st d).1.clients.map (fun x => x.id)
      = st.clients.map (fun x => x.id) ++ [st.next_client_id] := by
  unfold save_client
  rw [if_neg (by simp [hid])]
  simp

/-- The user-linking step never adds or removes client rows. -/
theorem link_ids (st : DBState) (e : Option String) (dl : String) :
    (link_client_to_user_by_email st e false dl).clients.map (fun x => x.id)
      = st.clients.map (fun x => x.id) := by
  unfold link_client_to_user_by_email
  split
  · rfl
  · split
    · rfl
    · split
      · rfl
      · split
        · split
          · simp only [List.map_map]
            apply List.map_congr_left
            intro a _
            simp only [Function.comp_apply]
            split <;> rfl
          · rfl
        · rfl

/-- A `save_client` update overwrites every column of the matched row
with the incoming values, keeping the stored ticket when the incoming
ticket is falsy. -/
theorem save_client_update_get (st : DBState) (d : SaveData) (cid : Nat)
    (c : Client) (hid : d.id = some cid) (h0 : cid ≠ 0)
    (hc : get_client_by_id st cid = some c) :
    get_client_by_id (save_client st d).1 cid = some
      { id := c.id
        ragione_sociale := d.ragione_sociale
        piva := d.piva
        email := d.email
        telefono := d.telefono
        listino := d.listino
        stato := d.stato
        note := d.note
        promo_enabled := normPromoEnabled d.promo_enabled
        promo_points := d.promo_points
        promo_ticket_code := pyOrS (pyOrS d.promo_ticket_code none) c.promo_ticket_code
        user_id := d.user_id } := by
  have hcid : c.id = cid := by
    have h2 := List.find?_some hc
    simpa using h2
  have hb : idTruthy (some cid) = true := by simp [idTruthy, h0]
  unfold save_client
  rw [hid, if_pos hb]
  show get_client_by_id _ cid = _
  unfold get_client_by_id
  rw [find_id_map _ cid _ (fun x => by by_cases hx : x.id = cid <;> simp [hx])]
  unfold get_client_by_id at hc
  rw [hc]
  simp [hcid, hc]

/-- Overwriting the `user_id` of the rows with one id changes at most the
`user_id` field of any stored client. -/
theorem map_user_id_get (st : DBState) (cid clid : Nat) (uid2 : Option Nat)
    (c' : Client) (hc : get_client_by_id st cid = some c') :
    ∃ uid, get_client_by_id
        { st with clients := st.clients.map (fun c =>
            if c.id = clid then { c with user_id := uid2 } else c) } cid
      = some { c' with user_id := uid } := by
  refine ⟨if c'.id = clid then uid2 else c'.user_id, ?_⟩
  show List.find? _ _ = _
  rw [find_id_map _ cid _ (fun x => by by_cases hx : x.id = clid <;> simp [hx])]
  unfold get_client_by_id at hc
  rw [hc]
  by_cases hcc : c'.id = clid <;> simp [hcc]

/-- The user-linking step changes at most the `user_id` field of a stored
client. -/
theorem link_get (st : DBState) (e : Option String) (dl : String) (cid : Nat)
    (c' : Client) (hc : get_client_by_id st cid = some c') :
    ∃ uid, get_client_by_id (link_client_to_user_by_email st e false dl) cid
      = some { c' with user_id := uid } := by
  unfold link_client_to_user_by_email
  split
  · exact ⟨c'.user_id, hc⟩
  · split
    · exact ⟨c'.user_id, hc⟩
    · split
      · exact ⟨c'.user_id, hc⟩
      · split
        · split
          · exact map_user_id_get st cid _ _ c' hc
          · exact ⟨c'.user_id, hc⟩
        · exact ⟨c'.user_id, hc⟩

/-! ## C10 — promo re-import overwrites the client but keeps the ticket -/

/-- C10: re-importing a promo row that matches an existing client
overwrites that client's record with the imported values — enrollment set
to 1, points reset to 0 regardless of the previous counter, name /
tax id / email / phone / price list taken from the row, state `attivo`,
empty note — while a previously assigned ticket code is preserved, and no
client row is created or removed. -/
theorem import_overwrite_keeps_ticket (st : DBState) (row : PromoImportRow)
    (c : Client)
    (hn : (st.clients.map (fun x => x.id)).Nodup)
    (hc0 : c.id ≠ 0)
    (h1 : ¬ (pyClean row.email = none ∧ pyClean row.piva = none))
    (h2 : emailOkForImport row = true)
    (hfind : find_client_by_email_or_piva st (pyClean row.email) (pyClean row.piva)
      = some c) :
    (import_promo_row st row).2 = .rowUpdated ∧
    (import_promo_row st row).1.clients.map (fun x => x.id)
      = st.clients.map (fun x => x.id) ∧
    ∃ c', get_client_by_id (import_promo_row st row).1 c.id = some c' ∧
      c'.promo_enabled = 1 ∧ c'.promo_points = 0 ∧
      c'.promo_ticket_code = c.promo_ticket_code ∧
      c'.ragione_sociale = pyClean row.ragione_sociale ∧
      c'.piva = pyClean row.piva ∧
      c'.email = pyClean row.email ∧
      c'.telefono = pyClean row.telefono ∧
      c'.listino = some ((pyClean row.listino).getD "rivenditore10") ∧
      c'.stato = some "attivo" ∧ c'.note = some "" := by
  have hmem : c ∈ st.clients := by
    unfold find_client_by_email_or_piva at hfind
    rw [if_neg h1] at hfind
    exact List.mem_of_find?_eq_some hfind
  have hgetc : get_client_by_id st c.id = some c := find_nodup_mem st.clients c hn hmem
  rw [import_promo_row_updated st row c h1 h2 hfind]
  refine ⟨rfl, ?_, ?_⟩
  · rw [link_ids, save_client_update_ids st _ c.id rfl hc0]
  · have hsave := save_client_update_get st (promoClientData row (some c.id)) c.id c
      rfl hc0 hgetc
    obtain ⟨uid, hlink⟩ := link_get _ (pyClean row.email) "rivenditore10" c.id _ hsave
    refine ⟨_, hlink, ?_, ?_, ?_, ?_, ?_, ?_, ?_, ?_, ?_, ?_⟩ <;>
      simp [promoClientData, pyOrS, sTruthy, normPromoEnabled]

/-- C10 witness: a concrete enrolled client with 5 points and a ticket,
re-imported. -/
theorem import_overwrite_keeps_ticket_witness :
    (import_promo_row
        { emptyDB with
            clients := [{ mkClient 1 (some "c@x.com") (some "P9") with
              promo_enabled := 1
              promo_points := 5
              promo_ticket_code := some "XMAS-0BADF00D" }]
            next_client_id := 2 }
        (mkImportRow (some "Acme") (some "c@x.com") (some "P9"))).2 = .rowUpdated := by
  have h := import_overwrite_keeps_ticket
    { emptyDB with
        clients := [{ mkClient 1 (some "c@x.com") (some "P9") with
          promo_enabled := 1
          promo_points := 5
          promo_ticket_code := some "XMAS-0BADF00D" }]
        next_client_id := 2 }
    (mkImportRow (some "Acme") (some "c@x.com") (some "P9"))
    { mkClient 1 (some "c@x.com") (some "P9") with
        promo_enabled := 1
        promo_points := 5
        promo_ticket_code := some "XMAS-0BADF00D" }
    (by decide) (by decide) (by decide) (by decide) (by decide)
  exact h.1

/-! ## C3 — de-duplication on promo import (corrected) -/

/-- C3 counterexample: with client 1 = (a@x.com, P1) and client 2 =
(b@x.com, P2), a row carrying email b@x.com and tax id P1 is matched by
the code's single email-OR-piva query to client 1 (the tax-id match,
first in table order), not to client 2 as "first match by email then by
tax id" dictates; the import then updates client 1 and leaves client 2
untouched. -/
theorem import_dedup_counterexample :
    (find_client_by_email_or_piva c3State (some "b@x.com") (some "P1")).map
        (fun c => c.id) = some 1 ∧
    (findFirstByEmailThenPiva c3State (some "b@x.com") (some "P1")).map
        (fun c => c.id) = some 2 ∧
    (import_promo_row c3State c3Row).2 = .rowUpdated ∧
    get_client_by_id (import_promo_row c3State c3Row).1 2
      = some (mkClient 2 (some "b@x.com") (some "P2")) ∧
    (get_client_by_id (import_promo_row c3State c3Row).1 1).map
        (fun c => c.ragione_sociale) = some (some "NewCo") := by
  refine ⟨by decide, by decide, by decide, by decide, by decide⟩

/-- C3 amended: each accepted import row is reconciled find-or-create
against the first client row (in table order) whose email or tax id
matches — email is not prioritised over tax id; when some client matches,
that row is updated in place and no client row is created; when none
matches, exactly one new client row is created, carrying the next free
id. -/
theorem import_find_or_create (st : DBState) (row : PromoImportRow)
    (h1 : ¬ (pyClean row.email = none ∧ pyClean row.piva = none))
    (h2 : emailOkForImport row = true) :
    (∀ c, find_client_by_email_or_piva st (pyClean row.email) (pyClean row.piva)
        = some c → c.id ≠ 0 →
      (import_promo_row st row).2 = .rowUpdated ∧
      (import_promo_row st row).1.clients.map (fun x => x.id)
        = st.clients.map (fun x => x.id)) ∧
    (find_client_by_email_or_piva st (pyClean row.email) (pyClean row.piva) = none →
      (import_promo_row st row).2 = .rowImported ∧
      (import_promo_row st row).1.clients.map (fun x => x.id)
        = st.clients.map (fun x => x.id) ++ [st.next_client_id]) := by
  constructor
  · intro c hfind hc0
    rw [import_promo_row_updated st row c h1 h2 hfind]
    exact ⟨rfl, by rw [link_ids, save_client_update_ids st _ c.id rfl hc0]⟩
  · intro hfind
    rw [import_promo_row_created st row h1 h2 hfind]
    refine ⟨rfl, ?_⟩
    rw [link_ids, save_client_insert_ids st (promoClientData row none) rfl]

/-- C3 witness: an accepted row matching nobody in a two-client registry
creates exactly one new client. -/
theorem import_find_or_create_witness :
    (import_promo_row c3State (mkImportRow (some "Fresh") (some "new@x.com")
        (some "P7"))).2 = .rowImported ∧
    (import_promo_row c3State (mkImportRow (some "Fresh") (some "new@x.com")
        (some "P7"))).1.clients.map (fun x => x.id) = [1, 2] ++ [3] := by
  have h := (import_find_or_create c3State
    (mkImportRow (some "Fresh") (some "new@x.com") (some "P7"))
    (by decide) (by decide)).2 (by decide)
  exact ⟨h.1, by rw [h.2]; decide⟩

/-! ## C2 — ledger/counter consistency (corrected) -/

/-- Appending one ledger row adds its points to exactly its client's sum. -/
theorem logsSum_append (L : List PromoLog) (l : PromoLog) (z : Nat) :
    logsSum (L ++ [l]) z
      = logsSum L z + (if l.client_id = z then l.points else 0) := by
  by_cases hz : l.client_id = z <;>
    simp [logsSum, List.filter_append, hz]

/-- The post-state of a successful grant, spelled out. -/
theorem add_promo_points_state (st : DBState) (cid : Nat) (code : String)
    (pts : Int) (hex : String) (c : Client)
    (hc : get_client_by_id st cid = some c) :
    (add_promo_points st cid code pts hex).2 =
      { st with
          clients := st.clients.map (fun x =>
            if x.id = cid then
              { x with
                  promo_points := c.promo_points + pts
                  promo_ticket_code :=
                    if ¬ sTruthy c.promo_ticket_code ∧ c.promo_enabled = 1 then
                      some (mkTicketCode hex)
                    else c.promo_ticket_code }
            else x)
          promo_logs := st.promo_logs ++ [⟨cid, code, pts⟩] } := by
  unfold add_promo_points
  rw [hc]

/-- A point grant preserves the counter = ledger-sum relation. -/
theorem grant_preserves_inv (st : DBState) (cid : Nat) (code : String)
    (pts : Int) (hex : String) (h : CounterMatchesLedger st) :
    CounterMatchesLedger (add_promo_points st cid code pts hex).2 := by
  rcases hc : get_client_by_id st cid with _ | c
  · unfold add_promo_points
    rw [hc]
    exact h
  · rw [add_promo_points_state st cid code pts hex c hc]
    intro x hx
    obtain ⟨y, hy, rfl⟩ := List.mem_map.mp hx
    have hcPred : c.id = cid := by simpa using List.find?_some hc
    have hcInv := h c (List.mem_of_find?_eq_some hc)
    have hyInv := h y hy
    unfold ledgerSum at hcInv hyInv ⊢
    by_cases hy2 : y.id = cid
    · simp only [hy2, if_pos]
      rw [logsSum_append]
      simp only [if_pos rfl]
      rw [hcPred] at hcInv
      simp [hcInv]
    · simp only [hy2, if_neg, if_false]
      rw [logsSum_append]
      have hne : ¬ (cid = y.id) := fun hEq => hy2 hEq.symm
      simp [hne, hyInv]

/-- C2 counterexample: create an enrolled client, grant it 5 points (one
ledger row, counter 5), then re-import a promo row matching it — that
run resets the stored counter to 0 while the ledger row remains, so
the counter no longer equals the ledger sum. -/
theorem ledger_counter_counterexample :
    ¬ CounterMatchesLedger (applyOps emptyDB c2Ops) := by
  decide

/-- C2 amended: the counter = ledger-sum relation holds after any
sequence of point grants from a state satisfying it; it is not preserved
by the other write operations — a promo-client import that matches an
existing client resets the stored counter to 0 without clearing that
client's ledger entries. -/
theorem ledger_counter_grants_only (st : DBState) (ops : List WriteOp)
    (h : CounterMatchesLedger st) (hg : ∀ op ∈ ops, op.isGrant = true) :
    CounterMatchesLedger (applyOps st ops) := by
  induction ops generalizing st with
  | nil => exact h
  | cons op rest ih =>
      have hop := hg op (List.mem_cons_self op rest)
      rcases op with ⟨cid, code, pts, hex⟩ | d | r
      · simp only [applyOps, List.foldl_cons]
        exact ih (applyOp st (.grant cid code pts hex))
          (grant_preserves_inv st cid code pts hex h)
          (fun o ho => hg o (List.mem_cons_of_mem _ ho))
      · simp [WriteOp.isGrant] at hop
      · simp [WriteOp.isGrant] at hop

/-- C2 witness: one grant to a fresh enrolled client keeps the counter
equal to the ledger sum. -/
theorem ledger_counter_grants_only_witness :
    CounterMatchesLedger (applyOps
      { emptyDB with
          clients := [{ mkClient 1 none none with promo_enabled := 1 }]
          next_client_id := 2 }
      [.grant 1 "FOLLOW_SOCIAL" 5 "0123456789abcdef0123456789abcdef"]) :=
  ledger_counter_grants_only
    { emptyDB with
        clients := [{ mkClient 1 none none with promo_enabled := 1 }]
        next_client_id := 2 }
    [.grant 1 "FOLLOW_SOCIAL" 5 "0123456789abcdef0123456789abcdef"]
    (by decide) (by decide)

/-! ## C1 — bracket selection (corrected) -/

/-- Appending a bracket to one segment's list inside a config's rules
dict extends exactly that segment's looked-up list. -/
theorem lookupSeg_addToSegRules (segs : List (String × List Bracket))
    (s' : String) (b : Bracket) (s : String) :
    lookupSeg (addToSegRules segs s' b) s
      = lookupSeg segs s ++ (if s' = s then [b] else []) := by
  induction segs with
  | nil =>
      by_cases hs : s' = s
      · subst hs
        simp [addToSegRules, lookupSeg]
      · simp [addToSegRules, lookupSeg, hs]
  | cons e rest ih =>
      obtain ⟨t, bs⟩ := e
      by_cases ht : t = s'
      · subst ht
        by_cases hts : t = s
        · subst hts
          simp [addToSegRules, lookupSeg, List.find?_cons]
        · simp [addToSegRules, lookupSeg, List.find?_cons, hts]
      · by_cases hts : t = s
        · subst hts
          have hne : ¬ s' = t := fun hEq => ht hEq.symm
          simp [addToSegRules, lookupSeg, List.find?_cons, ht, hne]
        · simpa [addToSegRules, lookupSeg, List.find?_cons, ht, hts] using ih

/-- Appending one rule row to the configs accumulator extends exactly the
(offer, segment) bracket list it belongs to. -/
theorem configSegRules_addToConfigs (cfgs : List Config) (o' s' : String)
    (b : Bracket) (o s : String) :
    configSegRules (addToConfigs cfgs o' s' b) o s
      = configSegRules cfgs o s ++ (if o' = o ∧ s' = s then [b] else []) := by
  induction cfgs with
  | nil =>
      by_cases ho : o' = o
      · subst ho
        by_cases hs : s' = s
        · subst hs
          simp [addToConfigs, configSegRules, lookupSeg, List.find?_cons]
        · simp [addToConfigs, configSegRules, lookupSeg, List.find?_cons, hs]
      · simp [addToConfigs, configSegRules, List.find?_cons, ho]
  | cons cfg rest ih =>
      by_cases hco : cfg.id = o'
      · by_cases ho : cfg.id = o
        · have ho' : o' = o := by rw [← hco, ho]
          simp only [addToConfigs, if_pos hco, configSegRules]
          rw [List.find?_cons_of_pos _ (by simp [ho]),
            List.find?_cons_of_pos _ (by simp [ho])]
          dsimp only
          rw [lookupSeg_addToSegRules]
          by_cases hs : s' = s <;> simp [hs, ho']
        · have ho2 : ¬ o' = o := fun hEq => ho (hco.trans hEq)
          simp [addToConfigs, hco, configSegRules, List.find?_cons, ho, ho2]
      · simp only [addToConfigs, if_neg hco]
        by_cases ho : cfg.id = o
        · have hfalse : ¬ (o' = o ∧ s' = s) :=
            fun hEq => hco (ho.trans hEq.1.symm)
          simp [configSegRules, List.find?_cons, ho, hfalse]
        · simpa [configSegRules, List.find?_cons, ho] using ih

/-- Folding rule rows into the configs accumulator collects, per
(offer, segment), exactly the rows of that pair in fold order. -/
theorem configSegRules_foldl (rows : List DiscountRuleRow) (acc : List Config)
    (o s : String) :
    configSegRules
        (rows.foldl (fun cfgs r => addToConfigs cfgs r.offer_id r.segment (toBracket r)) acc)
        o s
      = configSegRules acc o s
        ++ (rows.filter (fun r => r.offer_id = o ∧ r.segment = s)).map toBracket := by
  induction rows generalizing acc with
  | nil => simp
  | cons r rest ih =>
      simp only [List.foldl_cons]
      rw [ih]
      rw [configSegRules_addToConfigs]
      by_cases hr : r.offer_id = o ∧ r.segment = s
      · simp [hr, List.filter_cons]
      · simp [hr, List.filter_cons]

/-- The offer ids accumulated by `addToConfigs`. -/
theorem addToConfigs_ids (cfgs : List Config) (o' s' : String) (b : Bracket) :
    (addToConfigs cfgs o' s' b).map (fun c => c.id)
      = if o' ∈ cfgs.map (fun c => c.id) then cfgs.map (fun c => c.id)
        else cfgs.map (fun c => c.id) ++ [o'] := by
  induction cfgs with
  | nil => simp [addToConfigs]
  | cons cfg rest ih =>
      by_cases hco : cfg.id = o'
      · simp [addToConfigs, hco, List.mem_cons]
      · have hne : ¬ o' = cfg.id := fun hEq => hco hEq.symm
        simp only [addToConfigs, if_neg hco, List.map_cons, ih, List.mem_cons, hne,
          false_or]
        by_cases hm : o' ∈ rest.map (fun c => c.id) <;> simp [hm]

/-- The configs list built by the fold has pairwise distinct offer ids. -/
theorem foldl_configs_nodup (rows : List DiscountRuleRow) (acc : List Config)
    (hacc : (acc.map (fun c => c.id)).Nodup) :
    ((rows.foldl (fun cfgs r => addToConfigs cfgs r.offer_id r.segment (toBracket r)) acc).map
        (fun c => c.id)).Nodup := by
  induction rows generalizing acc with
  | nil => exact hacc
  | cons r rest ih =>
      simp only [List.foldl_cons]
      apply ih
      rw [addToConfigs_ids]
      by_cases hm : r.offer_id ∈ acc.map (fun c => c.id)
      · simpa [hm] using hacc
      · simp only [hm, if_false]
        simp [List.nodup_append, hacc, hm]

/-- Scanning configs none of which carries the requested offer id yields
no discount. -/
theorem scanConfigs_not_mem (o s : String) (amount : ℚ) (cfgs : List Config)
    (h : o ∉ cfgs.map (fun c => c.id)) :
    scanConfigs o s amount cfgs = 0 := by
  induction cfgs with
  | nil => rfl
  | cons cfg rest ih =>
      simp only [List.map_cons, List.mem_cons] at h
      push_neg at h
      have hne : cfg.id ≠ o := fun hEq => h.1 hEq.symm
      simp only [scanConfigs, if_pos hne]
      exact ih h.2

/-- With distinct offer ids, the break-on-nonzero config scan equals one
bracket scan over the looked-up (offer, segment) bracket list. -/
theorem scanConfigs_eq_scanRules (o s : String) (amount : ℚ) (cfgs : List Config)
    (hn : (cfgs.map (fun c => c.id)).Nodup) :
    scanConfigs o s amount cfgs = scanRules amount (configSegRules cfgs o s) := by
  induction cfgs with
  | nil => simp [scanConfigs, configSegRules, scanRules]
  | cons cfg rest ih =>
      simp only [List.map_cons, List.nodup_cons] at hn
      by_cases hid : cfg.id = o
      · simp only [scanConfigs, hid, ne_eq, not_true_eq_false, if_false]
        simp only [configSegRules]
        rw [List.find?_cons_of_pos _ (by simp [hid])]
        by_cases hd : scanRules amount (segRulesOf cfg s) ≠ 0
        · simp only [if_pos hd]
          rfl
        · simp only [if_neg hd]
          push_neg at hd
          rw [scanConfigs_not_mem o s amount rest (hid ▸ hn.1)]
          exact hd.symm
      · have hne : cfg.id ≠ o := hid
        simp only [scanConfigs, if_pos hne]
        simp only [configSegRules] at ih ⊢
        rw [List.find?_cons_of_neg _ (by simp [hid])]
        exact ih hn.2

/-- The bracket scan returns the discount of the first bracket containing
the amount, and 0 when none does. -/
theorem scanRules_first_match (amount : ℚ) (bs : List Bracket) :
    scanRules amount bs
      = ((bs.find? (bracketContains amount)).map (fun r => r.discount / 100)).getD 0 := by
  induction bs with
  | nil => rfl
  | cons r rest ih =>
      by_cases hr : bracketContains amount r = true
      · simp [scanRules, List.find?_cons, hr]
      · simp only [Bool.not_eq_true] at hr
        simp [scanRules, List.find?_cons, hr, ih]

instance : IsTrans DiscountRuleRow ruleLe := by
  constructor
  intro a b c hab hbc
  unfold ruleLe at hab hbc ⊢
  rcases hab with h1 | ⟨h1, h2⟩
  · rcases hbc with h3 | ⟨h3, _⟩
    · exact Or.inl (h1.trans h3)
    · exact Or.inl (h3 ▸ h1)
  · rcases hbc with h3 | ⟨h3, h4⟩
    · exact Or.inl (h1 ▸ h3)
    · refine Or.inr ⟨h1.trans h3, ?_⟩
      rcases h2 with h2 | ⟨h2, h2'⟩
      · rcases h4 with h4 | ⟨h4, _⟩
        · exact Or.inl (h2.trans h4)
        · exact Or.inl (h4 ▸ h2)
      · rcases h4 with h4 | ⟨h4, h4'⟩
        · exact Or.inl (h2 ▸ h4)
        · exact Or.inr ⟨h2.trans h4, h2'.trans h4'⟩

instance : IsTotal DiscountRuleRow ruleLe := by
  constructor
  intro a b
  unfold ruleLe
  rcases lt_trichotomy a.offer_id b.offer_id with h | h | h
  · exact Or.inl (Or.inl h)
  · rcases lt_trichotomy a.segment b.segment with h2 | h2 | h2
    · exact Or.inl (Or.inr ⟨h, Or.inl h2⟩)
    · rcases le_total a.min_amount b.min_amount with h3 | h3
      · exact Or.inl (Or.inr ⟨h, Or.inr ⟨h2, h3⟩⟩)
      · exact Or.inr (Or.inr ⟨h.symm, Or.inr ⟨h2.symm, h3⟩⟩)
    · exact Or.inr (Or.inr ⟨h.symm, Or.inl h2⟩)
  · exact Or.inr (Or.inl h)

/-- The rule rows kept for one (offer, segment) pair come out of
`list_discount_rules` in ascending `min_amount` order. -/
theorem filter_rules_sorted (table : List DiscountRuleRow) (o s : String) :
    ((list_discount_rules table).filter
        (fun r => r.offer_id = o ∧ r.segment = s)).Pairwise
      (fun a b => a.min_amount ≤ b.min_amount) := by
  have hsorted : List.Sorted ruleLe (list_discount_rules table) :=
    List.sorted_insertionSort ruleLe table
  have hp : ((list_discount_rules table).filter
      (fun r => r.offer_id = o ∧ r.segment = s)).Pairwise ruleLe :=
    List.Pairwise.filter _ hsorted
  refine hp.imp_of_mem ?_
  intro a b ha hb hab
  have ha' := (List.mem_filter.mp ha).2
  have hb' := (List.mem_filter.mp hb).2
  simp only [decide_eq_true_eq] at ha' hb'
  unfold ruleLe at hab
  rcases hab with h1 | ⟨_, h2⟩
  · rw [ha'.1, hb'.1] at h1
    exact absurd h1 (lt_irrefl _)
  · rcases h2 with h2 | ⟨_, h3⟩
    · rw [ha'.2, hb'.2] at h2
      exact absurd h2 (lt_irrefl _)
    · exact h3

/-- The example rule table is already in (offer, segment, min) order. -/
theorem c1_sorted : list_discount_rules c1ExampleRules = c1ExampleRules := by
  have h : ruleLe ⟨"X", "rivenditore", 0, some 99, 5, none⟩
      ⟨"X", "rivenditore", 100, none, 15, none⟩ :=
    Or.inr ⟨rfl, Or.inr ⟨rfl, by norm_num⟩⟩
  unfold list_discount_rules c1ExampleRules
  simp only [List.insertionSort, List.orderedInsert]
  rw [if_pos h]

/-- The brackets the example table keeps for offer "X" / segment
reseller. -/
theorem c1_filtered :
    ((list_discount_rules c1ExampleRules).filter
        (fun r => r.offer_id = "X" ∧ r.segment = "rivenditore")).map toBracket
      = [⟨0, some 99, 5, none⟩, ⟨100, none, 15, none⟩] := by
  rw [c1_sorted]
  decide

/-- C1 amended: for a product whose extra attributes carry a non-empty
offer_id, the bracket list kept for (offer, requested segment) is in
ascending min_amount order, the scan applies the discount of the first
bracket containing the line amount (0 when no bracket contains it), and
with the example rules [{min 0, max 99, 5%}, {min 100, max ∞, 15%}] a
line amount of 99.99 falls between the brackets and yields 0% off —
not 5% — while 100.00 yields 15% off. -/
theorem bracket_selection_amended :
    (∀ table (p : Product) seg q o, p.extra_offer_id = some o → o ≠ "" →
      (compute_price_with_discounts table p seg q).discount_applied
        = 100 * scanRules
            (pick_price_for_segment p seg p.base_price * ((max 1 q : Int) : ℚ))
            (((list_discount_rules table).filter
                (fun r => r.offer_id = o ∧ r.segment = seg)).map toBracket)) ∧
    (∀ amount bs, scanRules amount bs
      = ((bs.find? (bracketContains amount)).map (fun r => r.discount / 100)).getD 0) ∧
    (∀ table o s, ((list_discount_rules table).filter
        (fun r => r.offer_id = o ∧ r.segment = s)).Pairwise
      (fun a b => a.min_amount ≤ b.min_amount)) ∧
    (compute_price_with_discounts c1ExampleRules
        { mkBareProduct "SKU1" (some (9999 / 100)) with extra_offer_id := some "X" }
        "rivenditore" 1).discount_applied = 0 ∧
    (compute_price_with_discounts c1ExampleRules
        { mkBareProduct "SKU1" (some 100) with extra_offer_id := some "X" }
        "rivenditore" 1).discount_applied = 15 := by
  have hgen : ∀ table (p : Product) seg q o, p.extra_offer_id = some o → o ≠ "" →
      (compute_price_with_discounts table p seg q).discount_applied
        = 100 * scanRules
            (pick_price_for_segment p seg p.base_price * ((max 1 q : Int) : ℚ))
            (((list_discount_rules table).filter
                (fun r => r.offer_id = o ∧ r.segment = seg)).map toBracket) := by
    intro table p seg q o hoff ho
    unfold compute_price_with_discounts
    rw [hoff]
    simp only [if_neg ho]
    unfold discount_rules_to_configs
    rw [scanConfigs_eq_scanRules _ _ _ _
      (foldl_configs_nodup (list_discount_rules table) [] (by simp))]
    rw [configSegRules_foldl]
    simp [configSegRules, mul_comm]
  refine ⟨hgen, scanRules_first_match, filter_rules_sorted, ?_, ?_⟩
  · rw [hgen c1ExampleRules _ "rivenditore" 1 "X" rfl (by decide), c1_filtered]
    norm_num [scanRules, bracketContains, pick_price_for_segment, baseFallback,
      pyOrQ, qTruthy, mkBareProduct]
  · rw [hgen c1ExampleRules _ "rivenditore" 1 "X" rfl (by decide), c1_filtered]
    norm_num [scanRules, bracketContains, pick_price_for_segment, baseFallback,
      pyOrQ, qTruthy, mkBareProduct]

/-- C1 counterexample: with the spec's example rules for offer "X" and
segment reseller, a line amount of 99.99 is contained in neither bracket
([0, 99] and [100, ∞]), so the discount applied is 0%, not the claimed
5%. -/
theorem bracket_selection_counterexample :
    (compute_price_with_discounts c1ExampleRules
        { mkBareProduct "SKU1" (some (9999 / 100)) with extra_offer_id := some "X" }
        "rivenditore" 1).discount_applied ≠ 5 := by
  have h := bracket_selection_amended.2.2.2.1
  rw [h]
  norm_num

/-- C1 witness: a line amount of 100 with the example rules selects the
second bracket (15%). -/
theorem bracket_selection_witness :
    (compute_price_with_discounts c1ExampleRules
        { mkBareProduct "SKU1" (some 100) with extra_offer_id := some "X" }
        "rivenditore" 1).discount_applied
      = 100 * scanRules
          (pick_price_for_segment
            { mkBareProduct "SKU1" (some 100) with extra_offer_id := some "X" }
            "rivenditore"
            (some 100) * ((max 1 (1 : Int) : Int) : ℚ))
          (((list_discount_rules c1ExampleRules).filter
              (fun r => r.offer_id = "X" ∧ r.segment = "rivenditore")).map toBracket) :=
  bracket_selection_amended.1 c1ExampleRules
    { mkBareProduct "SKU1" (some 100) with extra_offer_id := some "X" }
    "rivenditore" 1 "X" rfl (by decide)

/-! ## C5 — price-list import idempotence -/

theorem upsertPayload_sku (d : UpsertData) : (upsertPayload d).sku = d.sku := rfl

/-- A SKU misses the lookup exactly when it is absent from the catalog. -/
theorem get_product_none_iff (t : List Product) (s : String) :
    get_product_by_sku t s = none ↔ s ∉ productSkus t := by
  unfold get_product_by_sku productSkus
  rw [List.find?_eq_none]
  constructor
  · intro h hm
    obtain ⟨p, hp, hps⟩ := List.mem_map.mp hm
    exact h p hp (by simp [hps])
  · intro h p hp hps
    simp only [decide_eq_true_eq] at hps
    exact h (List.mem_map.mpr ⟨p, hp, hps⟩)

/-- The SQL conflict test agrees with SKU membership. -/
theorem any_sku_iff (t : List Product) (s : String) :
    (t.any (fun p => p.sku = s) = true) ↔ s ∈ productSkus t := by
  simp [List.any_eq_true, productSkus, List.mem_map]

/-- An upsert keeps the SKU column, appending the new SKU when absent. -/
theorem upsert_product_skus (t : List Product) (d : UpsertData) :
    productSkus (upsert_product t d)
      = if d.sku ∈ productSkus t then productSkus t
        else productSkus t ++ [d.sku] := by
  unfold upsert_product
  simp only [upsertPayload_sku]
  by_cases hm : d.sku ∈ productSkus t
  · rw [if_pos ((any_sku_iff t d.sku).mpr hm), if_pos hm]
    simp only [productSkus, List.map_map]
    apply List.map_congr_left
    intro p hp
    simp only [Function.comp_apply]
    split
    · rename_i h
      exact h.symm
    · rfl
  · rw [if_neg (fun h => hm ((any_sku_iff t d.sku).mp h)), if_neg hm]
    simp [productSkus, upsertPayload_sku]

/-- Replacing the row of one SKU leaves lookups of other SKUs alone. -/
theorem find_map_replace_ne (t : List Product) (pl : Product) (s : String)
    (hne : s ≠ pl.sku) :
    (t.map (fun p => if p.sku = pl.sku then pl else p)).find? (fun p => p.sku = s)
      = t.find? (fun p => p.sku = s) := by
  induction t with
  | nil => rfl
  | cons p r ih =>
      by_cases hp : p.sku = pl.sku
      · simp only [List.map_cons, if_pos hp]
        rw [List.find?_cons_of_neg _
            (by simp only [decide_eq_true_eq]; exact fun hEq => hne hEq.symm),
          List.find?_cons_of_neg _
            (by simp only [decide_eq_true_eq]; exact fun hEq => hne (hEq ▸ hp))]
        exact ih
      · simp only [List.map_cons, if_neg hp]
        by_cases hps : p.sku = s
        · rw [List.find?_cons_of_pos _ (by simp [hps]),
            List.find?_cons_of_pos _ (by simp [hps])]
        · rw [List.find?_cons_of_neg _ (by simp [hps]),
            List.find?_cons_of_neg _ (by simp [hps])]
          exact ih

/-- Replacing the row of a present SKU makes its lookup return the new
row. -/
theorem find_map_replace_eq (t : List Product) (pl : Product)
    (hm : t.any (fun p => p.sku = pl.sku) = true) :
    (t.map (fun p => if p.sku = pl.sku then pl else p)).find? (fun p => p.sku = pl.sku)
      = some pl := by
  induction t with
  | nil => simp at hm
  | cons p r ih =>
      by_cases hp : p.sku = pl.sku
      · simp only [List.map_cons, if_pos hp]
        rw [List.find?_cons_of_pos _ (by simp)]
      · simp only [List.map_cons, if_neg hp]
        rw [List.find?_cons_of_neg _ (by simp [hp])]
        exact ih (by simpa [hp] using hm)

/-- Lookup after an upsert: the upserted SKU reads back the payload,
every other SKU is unchanged. -/
theorem upsert_product_lookup (t : List Product) (d : UpsertData) (s : String) :
    get_product_by_sku (upsert_product t d) s
      = if s = d.sku then some (upsertPayload d) else get_product_by_sku t s := by
  unfold upsert_product
  simp only [upsertPayload_sku]
  by_cases hm : t.any (fun p => p.sku = d.sku) = true
  · rw [if_pos hm]
    by_cases hs : s = d.sku
    · subst hs
      rw [if_pos rfl]
      exact find_map_replace_eq t (upsertPayload d) hm
    · rw [if_neg hs]
      exact find_map_replace_ne t (upsertPayload d) s hs
  · rw [if_neg hm]
    unfold get_product_by_sku
    rw [List.find?_append]
    have hnone : ∀ p ∈ t, ¬ (p.sku = d.sku) := by
      intro p hp hEq
      exact hm (List.any_eq_true.mpr ⟨p, hp, by simp [hEq]⟩)
    by_cases hs : s = d.sku
    · subst hs
      rw [if_pos rfl]
      rw [List.find?_eq_none.mpr (fun p hp => by simp [hnone p hp])]
      rw [List.find?_cons_of_pos _ (by simp [upsertPayload_sku])]
      rfl
    · rw [if_neg hs]
      rw [List.find?_cons_of_neg _
          (by simp only [upsertPayload_sku, decide_eq_true_eq]
              exact fun hEq => hs hEq.symm)]
      simp

/-- The SKU column after an import run, computed from the initial SKU
column. -/
theorem import_skus (rows : List PriceListRow) (t : List Product) :
    productSkus (import_price_rows t rows).table = skusAfter (productSkus t) rows := by
  induction rows generalizing t with
  | nil => rfl
  | cons row rest ih =>
      unfold import_price_rows skusAfter
      cases hrow : price_row_to_data row with
      | none => exact ih t
      | some d =>
          dsimp only
          cases hex : get_product_by_sku t d.sku with
          | some p =>
              have hmem : d.sku ∈ productSkus t := by
                by_contra hno
                rw [(get_product_none_iff t d.sku).mpr hno] at hex
                cases hex
              rw [if_pos hmem]
              show productSkus (import_price_rows (upsert_product t d) rest).table = _
              rw [ih (upsert_product t d), upsert_product_skus, if_pos hmem]
          | none =>
              have hno : d.sku ∉ productSkus t := (get_product_none_iff t d.sku).mp hex
              rw [if_neg hno]
              show productSkus (import_price_rows (upsert_product t d) rest).table = _
              rw [ih (upsert_product t d), upsert_product_skus, if_neg hno]

/-- `skusAfter` only ever extends the SKU column. -/
theorem skusAfter_subset (rows : List PriceListRow) (ks : List String) :
    ks ⊆ skusAfter ks rows := by
  induction rows generalizing ks with
  | nil => exact fun x hx => hx
  | cons row rest ih =>
      unfold skusAfter
      split
      · exact ih ks
      · split
        · exact ih ks
        · exact List.Subset.trans (List.subset_append_left ks _) (ih _)

/-- Every processed row's SKU ends up in the catalog. -/
theorem processed_mem_skusAfter (rows : List PriceListRow) (ks : List String) :
    ∀ d ∈ rows.filterMap price_row_to_data, d.sku ∈ skusAfter ks rows := by
  induction rows generalizing ks with
  | nil => simp
  | cons row rest ih =>
      intro d hd
      rw [List.filterMap_cons] at hd
      unfold skusAfter
      cases hrow : price_row_to_data row with
      | none =>
          rw [hrow] at hd
          exact ih ks d hd
      | some d0 =>
          rw [hrow] at hd
          dsimp only
          rcases List.mem_cons.mp hd with rfl | hd'
          · by_cases hm : d.sku ∈ ks
            · rw [if_pos hm]
              exact skusAfter_subset rest ks hm
            · rw [if_neg hm]
              exact skusAfter_subset rest (ks ++ [d.sku]) (by simp)
          · by_cases hm : d0.sku ∈ ks
            · rw [if_pos hm]
              exact ih ks d hd'
            · rw [if_neg hm]
              exact ih _ d hd'

/-- When every processed SKU is already present, the SKU column is
unchanged. -/
theorem skusAfter_fixed (rows : List PriceListRow) (ks : List String)
    (h : ∀ d ∈ rows.filterMap price_row_to_data, d.sku ∈ ks) :
    skusAfter ks rows = ks := by
  induction rows generalizing ks with
  | nil => rfl
  | cons row rest ih =>
      unfold skusAfter
      cases hrow : price_row_to_data row with
      | none =>
          exact ih ks (fun d hd => h d (by rw [List.filterMap_cons, hrow]; exact hd))
      | some d0 =>
          have hm : d0.sku ∈ ks :=
            h d0 (by rw [List.filterMap_cons, hrow]; exact List.mem_cons_self _ _)
          dsimp only
          rw [if_pos hm]
          exact ih ks (fun d hd =>
            h d (by rw [List.filterMap_cons, hrow]; exact List.mem_cons_of_mem _ hd))

/-- The SKU column of an import stays duplicate-free. -/
theorem skusAfter_nodup (rows : List PriceListRow) (ks : List String)
    (hn : ks.Nodup) : (skusAfter ks rows).Nodup := by
  induction rows generalizing ks with
  | nil => exact hn
  | cons row rest ih =>
      unfold skusAfter
      cases hrow : price_row_to_data row with
      | none => exact ih ks hn
      | some d =>
          dsimp only
          by_cases hm : d.sku ∈ ks
          · rw [if_pos hm]
            exact ih ks hn
          · rw [if_neg hm]
            exact ih _ (by simp [List.nodup_append, hn, hm])

/-- Lookup after an import run: each SKU reads back the payload of the
last processed row carrying it, anything else is untouched. -/
theorem import_lookup (rows : List PriceListRow) (t : List Product) (s : String) :
    get_product_by_sku (import_price_rows t rows).table s
      = ((rows.filterMap price_row_to_data).reverse.find? (fun d => d.sku = s)).elim
          (get_product_by_sku t s) (fun d => some (upsertPayload d)) := by
  induction rows generalizing t with
  | nil => rfl
  | cons row rest ih =>
      unfold import_price_rows
      rw [List.filterMap_cons]
      cases hrow : price_row_to_data row with
      | none => exact ih t
      | some d =>
          dsimp only
          cases hex : get_product_by_sku t d.sku with
          | some p =>
              show get_product_by_sku (import_price_rows (upsert_product t d) rest).table s = _
              rw [ih (upsert_product t d), List.reverse_cons, List.find?_append]
              cases hf : (rest.filterMap price_row_to_data).reverse.find?
                  (fun d' => d'.sku = s) with
              | some d' => rfl
              | none =>
                  rw [upsert_product_lookup]
                  by_cases hs : s = d.sku
                  · subst hs
                    rw [if_pos rfl, List.find?_cons_of_pos _ (by simp)]
                    rfl
                  · rw [if_neg hs,
                      List.find?_cons_of_neg _
                        (by simp only [decide_eq_true_eq]
                            exact fun hEq => hs hEq.symm)]
                    rfl
          | none =>
              show get_product_by_sku (import_price_rows (upsert_product t d) rest).table s = _
              rw [ih (upsert_product t d), List.reverse_cons, List.find?_append]
              cases hf : (rest.filterMap price_row_to_data).reverse.find?
                  (fun d' => d'.sku = s) with
              | some d' => rfl
              | none =>
                  rw [upsert_product_lookup]
                  by_cases hs : s = d.sku
                  · subst hs
                    rw [if_pos rfl, List.find?_cons_of_pos _ (by simp)]
                    rfl
                  · rw [if_neg hs,
                      List.find?_cons_of_neg _
                        (by simp only [decide_eq_true_eq]
                            exact fun hEq => hs hEq.symm)]
                    rfl

/-- A duplicate-free products table is determined by its SKU column and
its lookups. -/
theorem product_table_ext (t1 : List Product) : ∀ (t2 : List Product),
    (productSkus t1).Nodup →
    productSkus t1 = productSkus t2 →
    (∀ s, get_product_by_sku t1 s = get_product_by_sku t2 s) →
    t1 = t2 := by
  induction t1 with
  | nil =>
      intro t2 hn hk hl
      cases t2 with
      | nil => rfl
      | cons q r2 => simp [productSkus] at hk
  | cons p r1 ih =>
      intro t2 hn hk hl
      cases t2 with
      | nil => simp [productSkus] at hk
      | cons q r2 =>
          simp only [productSkus, List.map_cons, List.cons.injEq] at hk
          simp only [productSkus, List.map_cons, List.nodup_cons] at hn
          have hpq : p = q := by
            have h1 := hl p.sku
            unfold get_product_by_sku at h1
            rw [List.find?_cons_of_pos _ (by simp),
              List.find?_cons_of_pos _ (by simp [hk.1.symm])] at h1
            exact Option.some.inj h1
          subst hpq
          have htail : r1 = r2 := by
            apply ih r2 hn.2 hk.2
            intro s
            by_cases hs : s = p.sku
            · subst hs
              unfold get_product_by_sku
              rw [List.find?_eq_none.mpr, List.find?_eq_none.mpr]
              · intro x hx
                have hms : x.sku ∈ List.map (fun p => p.sku) r2 :=
                  List.mem_map.mpr ⟨x, hx, rfl⟩
                rw [← hk.2] at hms
                intro hpred
                simp only [decide_eq_true_eq] at hpred
                exact hn.1 (hpred ▸ hms)
              · intro x hx
                have hms : x.sku ∈ List.map (fun p => p.sku) r1 :=
                  List.mem_map.mpr ⟨x, hx, rfl⟩
                intro hpred
                simp only [decide_eq_true_eq] at hpred
                exact hn.1 (hpred ▸ hms)
            · have h1 := hl s
              unfold get_product_by_sku at h1
              rw [List.find?_cons_of_neg _
                  (by simp only [decide_eq_true_eq]; exact fun hEq => hs hEq.symm),
                List.find?_cons_of_neg _
                  (by simp only [decide_eq_true_eq]; exact fun hEq => hs hEq.symm)] at h1
              exact h1
          rw [htail]

/-- A run whose processed SKUs are all already present inserts nothing. -/
theorem import_inserted_zero (rows : List PriceListRow) (t : List Product)
    (h : ∀ d ∈ rows.filterMap price_row_to_data, d.sku ∈ productSkus t) :
    (import_price_rows t rows).inserted = 0 := by
  induction rows generalizing t with
  | nil => rfl
  | cons row rest ih =>
      unfold import_price_rows
      cases hrow : price_row_to_data row with
      | none =>
          exact ih t (fun d hd => h d (by rw [List.filterMap_cons, hrow]; exact hd))
      | some d =>
          have hm : d.sku ∈ productSkus t :=
            h d (by rw [List.filterMap_cons, hrow]; exact List.mem_cons_self _ _)
          dsimp only
          cases hg : get_product_by_sku t d.sku with
          | none => exact absurd hm ((get_product_none_iff t d.sku).mp hg)
          | some p =>
              show (import_price_rows (upsert_product t d) rest).inserted = 0
              apply ih
              intro d' hd'
              have hmem := h d' (by
                rw [List.filterMap_cons, hrow]
                exact List.mem_cons_of_mem _ hd')
              rw [upsert_product_skus]
              by_cases hmm : d.sku ∈ productSkus t
              · rw [if_pos hmm]
                exact hmem
              · rw [if_neg hmm]
                exact List.mem_append_left _ hmem

/-- C5: importing the same parsed price-list rows twice leaves the
product catalog in the same final state as importing them once, and the
second run inserts nothing — every row seen on the first run is counted
as updated. -/
theorem price_list_import_idempotent (rows : List PriceListRow)
    (t : List Product) (hn : (productSkus t).Nodup) :
    (import_price_rows (import_price_rows t rows).table rows).table
      = (import_price_rows t rows).table ∧
    (import_price_rows (import_price_rows t rows).table rows).inserted = 0 := by
  have hkeys1 : productSkus (import_price_rows t rows).table
      = skusAfter (productSkus t) rows := import_skus rows t
  have hproc : ∀ d ∈ rows.filterMap price_row_to_data,
      d.sku ∈ productSkus (import_price_rows t rows).table := by
    rw [hkeys1]
    exact processed_mem_skusAfter rows (productSkus t)
  constructor
  · apply product_table_ext
    · rw [import_skus rows (import_price_rows t rows).table]
      apply skusAfter_nodup
      rw [hkeys1]
      exact skusAfter_nodup rows (productSkus t) hn
    · rw [import_skus rows (import_price_rows t rows).table]
      exact skusAfter_fixed rows _ hproc
    · intro s
      rw [import_lookup rows (import_price_rows t rows).table s,
        import_lookup rows t s]
      cases hf : (rows.filterMap price_row_to_data).reverse.find?
          (fun d => d.sku = s) with
      | some d => rfl
      | none => rfl
  · exact import_inserted_zero rows _ hproc

/-- C5 witness: importing a one-row workbook twice into an empty catalog
leaves the catalog as after one run, inserting nothing the second time. -/
theorem price_list_import_idempotent_witness :
    (import_price_rows (import_price_rows [] [c5Row]).table [c5Row]).table
      = (import_price_rows [] [c5Row]).table ∧
    (import_price_rows (import_price_rows [] [c5Row]).table [c5Row]).inserted = 0 :=
  price_list_import_idempotent [c5Row] [] (by decide)

end TheLightrading
